import Mathlib

/-!
# glutton: the SIP connection handler (`protocols/sip.go`)

A shallow embedding of `HandleSIP` and of the deferred finalisation closure it
installs.  The connection, the honeypot sink and the gosip packet parser are
external collaborators: their pure functions are gathered in `Lib`, their
effectful answers are scripted by a `World` (the k-th `Read` answers
`World.Read k`, and so on), and every call the handler makes is appended to a
trace of `Action`s.

Go byte slices share their backing array.  The handler allocates one buffer and
stores `buffer[:n]` in each `read` event, so a payload is modelled as a
`ByteSlice`: a view of the handler's buffer, or freshly allocated bytes.  What a
holder of such a slice sees is obtained by `resolve` against the current buffer.
-/

namespace Glutton

/-- One octet of wire data. -/
abbrev Byte := UInt8

/-- The constant `maxBufferSize`. -/
def maxBufferSize : Nat := 1024

/-- The constant `http.StatusOK`. -/
def StatusOK : Nat := 200

/-- The constant `sip.REGISTER`. -/
def REGISTER : String := "REGISTER"

/-- The constant `sip.INVITE`. -/
def INVITE : String := "INVITE"

/-- The constant `sip.OPTIONS`. -/
def OPTIONS : String := "OPTIONS"

/-- The Go conversion `[]byte(s)` of a string to its bytes. -/
def toBytes (s : String) : List Byte := s.toUTF8.data.toList

/-- The interface `sip.Message`: the dynamic value is a request or a response
(the type switch `case sip.Request` separates the two). -/
inductive Message (Req Resp : Type) where
  | request (r : Req)
  | response (r : Resp)
  deriving DecidableEq

/-- A Go `[]byte` value as stored in an event: `buffer[:n]`, which shares the
handler's buffer, or a slice with an array of its own. -/
inductive ByteSlice where
  | ofBuffer (n : Nat)
  | fresh (bs : List Byte)
  deriving DecidableEq

/-- The struct `parsedSIP`.  `Message` is an interface value, `none` is `nil`. -/
structure parsedSIP (Req Resp : Type) where
  Direction : String
  Payload : ByteSlice
  Message : Option (Message Req Resp)
  deriving DecidableEq

/-- The zero value of `parsedSIP`. -/
instance {Req Resp : Type} : Inhabited (parsedSIP Req Resp) :=
  ⟨{ Direction := "", Payload := ByteSlice.fresh [], Message := none }⟩

/-- The bytes seen through a slice when the handler's buffer holds `buffer`. -/
def resolve (buffer : List Byte) : ByteSlice → List Byte
  | ByteSlice.ofBuffer n => buffer.take n
  | ByteSlice.fresh bs => bs

/-- An event as its holder sees it: the payload bytes read through the slice. -/
structure Event (Req Resp : Type) where
  Direction : String
  Payload : List Byte
  Message : Option (Message Req Resp)
  deriving DecidableEq

/-- The view of a stored `parsedSIP` when the handler's buffer holds `buffer`. -/
def observe {Req Resp : Type} (buffer : List Byte) (e : parsedSIP Req Resp) : Event Req Resp :=
  { Direction := e.Direction, Payload := resolve buffer e.Payload, Message := e.Message }

/-- Modelled from the spec: the generic helper `firstOrEmpty` is not part of
`sip.go`; the finalizer passes "the payload of the first recorded Event (or an
empty byte sequence if no Events were ever recorded)", so the helper yields the
first element of the slice, or the zero value of the element type when the
slice is empty. -/
def firstOrEmpty {α : Type} [Inhabited α] (xs : List α) : α :=
  match xs with
  | [] => default
  | x :: _ => x

/-- The pure functions of the imported packages that the handler calls:
`pp.ParseMessage`, `Request.Method`, `Request.MessageID`,
`sip.NewResponseFromRequest`, `Response.String` and `error.Error`. -/
structure Lib (Req Resp MsgID Err : Type) where
  ParseMessage : List Byte → Except Err (Message Req Resp)
  Method : Req → String
  MessageID : Req → MsgID
  NewResponseFromRequest : MsgID → Req → Nat → String → String → Resp
  ResponseString : Resp → String
  ErrorText : Err → String

/-- The scripted answers of the effectful collaborators.  `Read k` is what the
k-th `conn.Read` puts into the buffer together with its error, `Write k` the
error of the k-th `conn.Write`; the finalizer's three calls happen once. -/
structure World (Err MD : Type) where
  Read : Nat → List Byte × Option Err
  Write : Nat → Option Err
  MetadataByConnection : MD × Option Err
  Produce : Option Err
  Close : Option Err

/-- One entry of the trace: a collaborator call with its arguments and answer,
a log line, or an append to `server.events`.  A byte slice handed to a
collaborator is recorded by the bytes it shows at the time of the call, so
`Produce` carries the events as the sink sees them. -/
inductive Action (Req Resp Err MD : Type) where
  | Read (data : List Byte) (err : Option Err)
  | ParseMessage (bytes : List Byte) (err : Option Err)
  | Append (e : parsedSIP Req Resp)
  | Info (msg : String)
  | Error (msg : String) (protocol : Option String) (err : Option Err)
  | Write (bytes : List Byte) (err : Option Err)
  | MetadataByConnection (err : Option Err)
  | Produce (protocol : String) (md : MD) (payload : List Byte)
      (events : List (Event Req Resp)) (err : Option Err)
  | Close (err : Option Err)
  deriving DecidableEq

/-- The struct `sipServer`. -/
structure sipServer (Req Resp : Type) where
  events : List (parsedSIP Req Resp)
  deriving DecidableEq

/-- The handler's variables at the head of the `for` loop: the reused buffer,
`server`, the number of `Read` and `Write` calls made, and the trace. -/
structure State (Req Resp Err MD : Type) where
  buffer : List Byte
  server : sipServer Req Resp
  reads : Nat
  writes : Nat
  trace : List (Action Req Resp Err MD)
  deriving DecidableEq

/-- The result of one pass through the loop body: back to the loop head, or
`return err`. -/
inductive Outcome (Req Resp Err MD : Type) where
  | next (s : State Req Resp Err MD)
  | exit (err : Err) (s : State Req Resp Err MD)
  deriving DecidableEq

variable {Req Resp MsgID Err MD : Type}

/-- The state before the loop: `buffer := make([]byte, maxBufferSize)` and
`server := sipServer{events: []parsedSIP{}}`. -/
def initial : State Req Resp Err MD :=
  { buffer := List.replicate maxBufferSize 0, server := { events := [] }, reads := 0, writes := 0,
    trace := [] }

/-- The inner `switch msg.Method()` of the loop body for a request. -/
def dispatchRequest (lib : Lib Req Resp MsgID Err) (w : World Err MD)
    (s : State Req Resp Err MD) (msg : Req) : Outcome Req Resp Err MD :=
  if lib.Method msg = REGISTER then
    Outcome.next { s with trace := s.trace ++ [Action.Info "handling SIP register"] }
  else if lib.Method msg = INVITE then
    Outcome.next { s with trace := s.trace ++ [Action.Info "handling SIP invite"] }
  else if lib.Method msg = OPTIONS then
    let resp := lib.NewResponseFromRequest (lib.MessageID msg) msg StatusOK "" ""
    let ev : parsedSIP Req Resp :=
      { Direction := "write"
        Message := some (Message.response resp)
        Payload := ByteSlice.fresh (toBytes (lib.ResponseString resp)) }
    let out := toBytes (lib.ResponseString resp)
    let s1 : State Req Resp Err MD :=
      { s with
        server := { events := s.server.events ++ [ev] }
        writes := s.writes + 1
        trace := s.trace ++ [Action.Info "handling SIP options", Action.Append ev,
          Action.Write out (w.Write s.writes)] }
    match w.Write s.writes with
    | some err => Outcome.exit err s1
    | none => Outcome.next s1
  else
    Outcome.next s

/-- One pass through the body of the `for` loop of `HandleSIP`. -/
def iteration (lib : Lib Req Resp MsgID Err) (w : World Err MD)
    (s : State Req Resp Err MD) : Outcome Req Resp Err MD :=
  let data := ((w.Read s.reads).1).take maxBufferSize
  let n := data.length
  let buffer := data ++ s.buffer.drop n
  let s1 : State Req Resp Err MD :=
    { s with buffer := buffer, reads := s.reads + 1,
             trace := s.trace ++ [Action.Read data (w.Read s.reads).2] }
  match (w.Read s.reads).2 with
  | some err => Outcome.exit err s1
  | none =>
    match lib.ParseMessage (buffer.take n) with
    | Except.error err =>
      Outcome.exit err
        { s1 with trace := s1.trace ++ [Action.ParseMessage (buffer.take n) (some err)] }
    | Except.ok msg =>
      let ev : parsedSIP Req Resp :=
        { Direction := "read", Message := some msg, Payload := ByteSlice.ofBuffer n }
      let s2 : State Req Resp Err MD :=
        { s1 with
          server := { events := s1.server.events ++ [ev] }
          trace := s1.trace ++ [Action.ParseMessage (buffer.take n) none, Action.Append ev] }
      match msg with
      | Message.request r => dispatchRequest lib w s2 r
      | Message.response _ => Outcome.next s2

/-- The `for` loop, run for at most `fuel` passes: `none` when the loop is still
running after `fuel` passes, otherwise the returned error and the final state. -/
def loop (lib : Lib Req Resp MsgID Err) (w : World Err MD) :
    Nat → State Req Resp Err MD → Option (Err × State Req Resp Err MD)
  | 0, _ => none
  | fuel + 1, s =>
    match iteration lib w s with
    | Outcome.exit err s1 => some (err, s1)
    | Outcome.next s1 => loop lib w fuel s1

/-- The state at the loop head after `k` passes that all came back to the loop
head, `none` when one of them returned. -/
def advance (lib : Lib Req Resp MsgID Err) (w : World Err MD) :
    Nat → State Req Resp Err MD → Option (State Req Resp Err MD)
  | 0, s => some s
  | k + 1, s =>
    match iteration lib w s with
    | Outcome.exit _ _ => none
    | Outcome.next s1 => advance lib w k s1

/-- The error log entry written when a finalizer step fails. -/
def logFailure (msg : String) (protocol : Option String) :
    Option Err → List (Action Req Resp Err MD)
  | some err => [Action.Error msg protocol (some err)]
  | none => []

/-- The deferred closure of `HandleSIP`, run on the state the loop ended in:
metadata lookup, `Produce`, `Close`, each followed by its error log entry. -/
def finalizer (lib : Lib Req Resp MsgID Err) (w : World Err MD)
    (s : State Req Resp Err MD) : List (Action Req Resp Err MD) :=
  [Action.MetadataByConnection w.MetadataByConnection.2]
    ++ logFailure "failed to fetch meta data" (some "sip") w.MetadataByConnection.2
    ++ [Action.Produce "sip" w.MetadataByConnection.1
          (resolve s.buffer (firstOrEmpty s.server.events).Payload)
          (s.server.events.map (observe s.buffer)) w.Produce]
    ++ logFailure "failed to produce message" (some "sip") w.Produce
    ++ (match w.Close with
        | some err =>
          [Action.Close (some err),
           Action.Error ("failed to close SIP connection: " ++ lib.ErrorText err) none none]
        | none => [Action.Close none])

/-- The function `HandleSIP`: the returned error and the whole trace, or `none`
when the connection loop is still running after `fuel` passes. -/
def HandleSIP (lib : Lib Req Resp MsgID Err) (w : World Err MD) (fuel : Nat) :
    Option (Err × List (Action Req Resp Err MD)) :=
  match loop lib w fuel initial with
  | none => none
  | some (err, s) => some (err, s.trace ++ finalizer lib w s)

/-! ## Vocabulary of the statements -/

/-- The bytes the next `conn.Read` returns in state `s`: at most a buffer full. -/
def readData (w : World Err MD) (s : State Req Resp Err MD) : List Byte :=
  ((w.Read s.reads).1).take maxBufferSize

/-- The `read` event appended for a message parsed from `n` bytes. -/
def readEvent (n : Nat) (msg : Message Req Resp) : parsedSIP Req Resp :=
  { Direction := "read", Message := some msg, Payload := ByteSlice.ofBuffer n }

/-- The response built from the request `req`: the request's message identity,
status code 200, empty reason phrase, empty body. -/
def responseTo (lib : Lib Req Resp MsgID Err) (req : Req) : Resp :=
  lib.NewResponseFromRequest (lib.MessageID req) req 200 "" ""

/-- The `write` event appended for the response `resp`. -/
def writeEvent (lib : Lib Req Resp MsgID Err) (resp : Resp) : parsedSIP Req Resp :=
  { Direction := "write", Message := some (Message.response resp),
    Payload := ByteSlice.fresh (toBytes (lib.ResponseString resp)) }

/-- The state after a read whose bytes parsed to `msg`, before the dispatch. -/
def recorded (w : World Err MD) (s : State Req Resp Err MD) (msg : Message Req Resp) :
    State Req Resp Err MD :=
  { buffer := readData w s ++ s.buffer.drop (readData w s).length,
    server := { events := s.server.events ++ [readEvent (readData w s).length msg] },
    reads := s.reads + 1,
    writes := s.writes,
    trace := s.trace ++ [Action.Read (readData w s) none,
      Action.ParseMessage (readData w s) none,
      Action.Append (readEvent (readData w s).length msg)] }

/-- The informational log line the dispatcher writes for a parsed message that
is not an OPTIONS request. -/
def dispatchLog (lib : Lib Req Resp MsgID Err) :
    Message Req Resp → List (Action Req Resp Err MD)
  | Message.request r =>
    if lib.Method r = REGISTER then [Action.Info "handling SIP register"]
    else if lib.Method r = INVITE then [Action.Info "handling SIP invite"]
    else []
  | Message.response _ => []

/-- The state in which the loop returns when the read itself failed. -/
def readFailed (w : World Err MD) (s : State Req Resp Err MD) : State Req Resp Err MD :=
  { buffer := readData w s ++ s.buffer.drop (readData w s).length,
    server := { events := s.server.events },
    reads := s.reads + 1,
    writes := s.writes,
    trace := s.trace ++ [Action.Read (readData w s) (w.Read s.reads).2] }

/-- The state in which the loop returns when the bytes read failed to parse. -/
def parseFailed (w : World Err MD) (s : State Req Resp Err MD) (err : Err) :
    State Req Resp Err MD :=
  { buffer := readData w s ++ s.buffer.drop (readData w s).length,
    server := { events := s.server.events },
    reads := s.reads + 1,
    writes := s.writes,
    trace := s.trace ++ [Action.Read (readData w s) none,
      Action.ParseMessage (readData w s) (some err)] }

/-- The state after a pass that read a message other than an OPTIONS request. -/
def ignored (lib : Lib Req Resp MsgID Err) (w : World Err MD) (s : State Req Resp Err MD)
    (msg : Message Req Resp) : State Req Resp Err MD :=
  { buffer := readData w s ++ s.buffer.drop (readData w s).length,
    server := { events := s.server.events ++ [readEvent (readData w s).length msg] },
    reads := s.reads + 1,
    writes := s.writes,
    trace := s.trace ++ [Action.Read (readData w s) none,
      Action.ParseMessage (readData w s) none,
      Action.Append (readEvent (readData w s).length msg)] ++ dispatchLog lib msg }

/-- The state after a pass that read the OPTIONS request `req` and called
`conn.Write` with the response, whatever the write answered. -/
def responded (lib : Lib Req Resp MsgID Err) (w : World Err MD) (s : State Req Resp Err MD)
    (req : Req) : State Req Resp Err MD :=
  { buffer := readData w s ++ s.buffer.drop (readData w s).length,
    server := { events := s.server.events ++ [readEvent (readData w s).length (Message.request req),
      writeEvent lib (responseTo lib req)] },
    reads := s.reads + 1,
    writes := s.writes + 1,
    trace := s.trace ++ [Action.Read (readData w s) none,
      Action.ParseMessage (readData w s) none,
      Action.Append (readEvent (readData w s).length (Message.request req)),
      Action.Info "handling SIP options",
      Action.Append (writeEvent lib (responseTo lib req)),
      Action.Write (toBytes (lib.ResponseString (responseTo lib req))) (w.Write s.writes)] }

/-- The finalizer's collaborator calls and its error log lines. -/
def Action.isFinalizerStep : Action Req Resp Err MD → Bool
  | Action.MetadataByConnection _ => true
  | Action.Produce _ _ _ _ _ => true
  | Action.Close _ => true
  | Action.Error _ _ _ => true
  | _ => false

/-- The work of the connection loop: read, parse, event append, write. -/
def Action.isLoopWork : Action Req Resp Err MD → Bool
  | Action.Read _ _ => true
  | Action.ParseMessage _ _ => true
  | Action.Append _ => true
  | Action.Write _ _ => true
  | _ => false

/-- Recognises a call of `MetadataByConnection`. -/
def Action.isMetadata : Action Req Resp Err MD → Bool
  | Action.MetadataByConnection _ => true
  | _ => false

/-- Recognises a call of `Produce`. -/
def Action.isProduce : Action Req Resp Err MD → Bool
  | Action.Produce _ _ _ _ _ => true
  | _ => false

/-- Recognises a call of `Close`. -/
def Action.isClose : Action Req Resp Err MD → Bool
  | Action.Close _ => true
  | _ => false

/-- Recognises one of the finalizer's three collaborator calls. -/
def Action.isFinalizerCall (a : Action Req Resp Err MD) : Bool :=
  a.isMetadata || a.isProduce || a.isClose

/-- Recognises an error log line. -/
def Action.isErrorLog : Action Req Resp Err MD → Bool
  | Action.Error _ _ _ => true
  | _ => false

/-- Recognises an operation on the wire: a `conn.Read` or a `conn.Write`. -/
def Action.isWire : Action Req Resp Err MD → Bool
  | Action.Read _ _ => true
  | Action.Write _ _ => true
  | _ => false

/-- The direction of a wire operation. -/
def Action.direction : Action Req Resp Err MD → String
  | Action.Read _ _ => "read"
  | Action.Write _ _ => "write"
  | _ => ""

/-- The error, if any, answered by a read, a parse or a write. -/
def Action.loopError : Action Req Resp Err MD → Option Err
  | Action.Read _ err => err
  | Action.ParseMessage _ err => err
  | Action.Write _ err => err
  | _ => none

/-- The first error answered by a read, a parse or a write in a trace. -/
def firstError (tr : List (Action Req Resp Err MD)) : Option Err :=
  tr.findSome? Action.loopError

/-- The wire operations of a trace, in order. -/
def wireOps (tr : List (Action Req Resp Err MD)) : List (Action Req Resp Err MD) :=
  tr.filter Action.isWire

/-- The event `e` is the record of the wire operation `a`: a `read` event holds
the first `n` bytes of the buffer and the message parsed from the `n` bytes a
successful read returned; a `write` event owns the bytes handed to the write. -/
def createdBy (lib : Lib Req Resp MsgID Err) (a : Action Req Resp Err MD)
    (e : parsedSIP Req Resp) : Prop :=
  match a with
  | Action.Read data none =>
    e.Direction = "read" ∧ e.Payload = ByteSlice.ofBuffer data.length ∧
      ∃ msg, lib.ParseMessage data = Except.ok msg ∧ e.Message = some msg
  | Action.Write bytes _ =>
    e.Direction = "write" ∧ e.Payload = ByteSlice.fresh bytes
  | _ => False

/-- The number of failed finalizer steps in the world `w`. -/
def failedSteps (w : World Err MD) : Nat :=
  (if w.MetadataByConnection.2.isSome then 1 else 0)
    + (if w.Produce.isSome then 1 else 0)
    + (if w.Close.isSome then 1 else 0)

/-- The payload of the first event of a sequence, no bytes for an empty one. -/
def firstPayload (events : List (Event Req Resp)) : List Byte :=
  match events with
  | [] => []
  | e :: _ => e.Payload

/-- What the slice `buffer[:len(first)]` shows once a later read has put the
bytes `second` at the start of the buffer that held `first` there: the new
bytes, followed by what is left of the old ones. -/
def overwrite (first second : List Byte) : List Byte :=
  (second ++ first.drop second.length).take first.length

/-! ## A sample peer

A small stand-in for the gosip parser and a scripted connection, used to run
the handler on concrete input. -/

/-- A request as the sample parser returns it: the method token and the rest of
the start line, which also serves as its message identity. -/
structure SampleRequest where
  method : String
  line : String
  deriving DecidableEq

/-- A response of the sample library: the arguments it was built from. -/
structure SampleResponse where
  id : String
  status : Nat
  reason : String
  body : String
  deriving DecidableEq

/-- The text spelled by a byte sequence, one character per byte. -/
def asText (bs : List Byte) : String :=
  String.mk (bs.map (fun b => Char.ofNat b.toNat))

/-- The sample parser: the bytes up to the first space are the first token of
the start line; input without a second token is malformed, a first token
`SIP/2.0` makes a response, any other first token is a request method. -/
def sampleParse (bs : List Byte) : Except String (Message SampleRequest SampleResponse) :=
  let first := bs.takeWhile (fun b => b != 32)
  let rest := (bs.dropWhile (fun b => b != 32)).drop 1
  if rest = [] then Except.error "malformed start line"
  else if first = toBytes "SIP/2.0" then
    Except.ok (Message.response { id := "", status := 0, reason := asText rest, body := "" })
  else
    Except.ok (Message.request { method := asText first, line := asText rest })

/-- The sample library around `sampleParse`. -/
def sampleLib : Lib SampleRequest SampleResponse String String :=
  { ParseMessage := sampleParse
    Method := fun r => r.method
    MessageID := fun r => r.line
    NewResponseFromRequest := fun id _ code reason body =>
      { id := id, status := code, reason := reason, body := body }
    ResponseString := fun r =>
      "SIP/2.0 " ++ toString r.status ++ " " ++ r.reason ++ " id=" ++ r.id ++ " " ++ r.body
    ErrorText := fun e => e }

/-- A scripted peer: the listed reads and write results in order, after which
every read fails with `EOF` and every write succeeds. -/
def script (reads : List (List Byte × Option String)) (writes : List (Option String))
    (md : String × Option String) (produce close : Option String) : World String String :=
  { Read := fun k => reads.getD k ([], some "EOF")
    Write := fun k => writes.getD k none
    MetadataByConnection := md
    Produce := produce
    Close := close }

/-- A peer that sends one OPTIONS request and then disconnects. -/
def optionsPeer : World String String :=
  script [(toBytes "OPTIONS sip:honeypot SIP/2.0", none)] [] ("meta", none) none none

/-- A peer that sends one REGISTER request and then disconnects. -/
def registerPeer : World String String :=
  script [(toBytes "REGISTER sip:honeypot SIP/2.0", none)] [] ("meta", none) none none

/-- The handler's state before the loop, for the sample library. -/
def sampleInitial : State SampleRequest SampleResponse String String := initial

/-- The OPTIONS request that `optionsPeer` sends, as parsed. -/
def optionsRequest : SampleRequest :=
  { method := "OPTIONS", line := "sip:honeypot SIP/2.0" }

/-- The REGISTER request that `registerPeer` sends, as parsed. -/
def registerRequest : SampleRequest :=
  { method := "REGISTER", line := "sip:honeypot SIP/2.0" }

/-- The message parsed from what `registerPeer` sends. -/
def registerMessage : Message SampleRequest SampleResponse :=
  Message.request registerRequest

/-- A peer that disconnects before sending anything. -/
def silentPeer : World String String :=
  script [] [] ("meta", none) none none

/-- The trace of the handler on `silentPeer`. -/
def silentTrace : List (Action SampleRequest SampleResponse String String) :=
  [Action.Read [] (some "EOF"),
   Action.MetadataByConnection none,
   Action.Produce "sip" "meta" [] [] none,
   Action.Close none]

/-- The trace of the handler on `registerPeer`. -/
def registerTrace : List (Action SampleRequest SampleResponse String String) :=
  [Action.Read (toBytes "REGISTER sip:honeypot SIP/2.0") none,
   Action.ParseMessage (toBytes "REGISTER sip:honeypot SIP/2.0") none,
   Action.Append (readEvent 29 registerMessage),
   Action.Info "handling SIP register",
   Action.Read [] (some "EOF"),
   Action.MetadataByConnection none,
   Action.Produce "sip" "meta" (toBytes "REGISTER sip:honeypot SIP/2.0")
     [{ Direction := "read", Payload := toBytes "REGISTER sip:honeypot SIP/2.0",
        Message := some registerMessage }] none,
   Action.Close none]

/-- A peer that disconnects at once, behind a sink whose metadata lookup and
`Produce` fail and a connection whose `Close` fails. -/
def faultySink : World String String :=
  script [] [] ("", some "unknown connection") (some "sink unavailable")
    (some "use of closed network connection")

/-- The trace of the handler on `faultySink`. -/
def faultyTrace : List (Action SampleRequest SampleResponse String String) :=
  [Action.Read [] (some "EOF"),
   Action.MetadataByConnection (some "unknown connection"),
   Action.Error "failed to fetch meta data" (some "sip") (some "unknown connection"),
   Action.Produce "sip" "" [] [] (some "sink unavailable"),
   Action.Error "failed to produce message" (some "sip") (some "sink unavailable"),
   Action.Close (some "use of closed network connection"),
   Action.Error "failed to close SIP connection: use of closed network connection" none none]

/-- The trace of the handler on `optionsPeer`. -/
def optionsTrace : List (Action SampleRequest SampleResponse String String) :=
  [Action.Read (toBytes "OPTIONS sip:honeypot SIP/2.0") none,
   Action.ParseMessage (toBytes "OPTIONS sip:honeypot SIP/2.0") none,
   Action.Append (readEvent 28 (Message.request optionsRequest)),
   Action.Info "handling SIP options",
   Action.Append (writeEvent sampleLib (responseTo sampleLib optionsRequest)),
   Action.Write (toBytes "SIP/2.0 200  id=sip:honeypot SIP/2.0 ") none,
   Action.Read [] (some "EOF"),
   Action.MetadataByConnection none,
   Action.Produce "sip" "meta" (toBytes "OPTIONS sip:honeypot SIP/2.0")
     [{ Direction := "read", Payload := toBytes "OPTIONS sip:honeypot SIP/2.0",
        Message := some (Message.request optionsRequest) },
      { Direction := "write", Payload := toBytes "SIP/2.0 200  id=sip:honeypot SIP/2.0 ",
        Message := some (Message.response
          { id := "sip:honeypot SIP/2.0", status := 200, reason := "", body := "" }) }] none,
   Action.Close none]

/-- A peer that sends a REGISTER request and then bytes without a start line. -/
def malformedPeer : World String String :=
  script [(toBytes "REGISTER sip:honeypot SIP/2.0", none), (toBytes "garbage", none)] []
    ("meta", none) none none

/-- The trace of the handler on `malformedPeer`.  The second read put its seven
bytes at the start of the reused buffer, so the `read` event of the REGISTER
request reaches `Produce` with a payload that starts with them. -/
def malformedTrace : List (Action SampleRequest SampleResponse String String) :=
  [Action.Read (toBytes "REGISTER sip:honeypot SIP/2.0") none,
   Action.ParseMessage (toBytes "REGISTER sip:honeypot SIP/2.0") none,
   Action.Append (readEvent 29 registerMessage),
   Action.Info "handling SIP register",
   Action.Read (toBytes "garbage") none,
   Action.ParseMessage (toBytes "garbage") (some "malformed start line"),
   Action.MetadataByConnection none,
   Action.Produce "sip" "meta" (toBytes "garbageR sip:honeypot SIP/2.0")
     [{ Direction := "read", Payload := toBytes "garbageR sip:honeypot SIP/2.0",
        Message := some registerMessage }] none,
   Action.Close none]

/-- A peer that sends one OPTIONS request over a connection whose first write
fails. -/
def brokenPipePeer : World String String :=
  script [(toBytes "OPTIONS sip:honeypot SIP/2.0", none)] [some "broken pipe"]
    ("meta", none) none none

/-- The line end of SIP, carriage return and line feed. -/
def crlf : List Byte := [13, 10]

/-- The bytes of a SIP message without body: every line followed by `crlf`,
then the empty line that ends the headers. -/
def sipMessage (lines : List String) : List Byte :=
  lines.foldr (fun line rest => toBytes line ++ crlf ++ rest) crlf

/-- A complete REGISTER request, as a SIP client sends it. -/
def registerBytes : List Byte :=
  sipMessage
    ["REGISTER sip:honeypot SIP/2.0",
     "Via: SIP/2.0/TCP 10.0.0.1:5060;branch=z9hG4bK1",
     "Max-Forwards: 70",
     "From: <sip:alice@honeypot>;tag=1",
     "To: <sip:alice@honeypot>",
     "Call-ID: 1@10.0.0.1",
     "CSeq: 1 REGISTER",
     "Content-Length: 0"]

/-- A complete INVITE request, shorter than `registerBytes`. -/
def inviteBytes : List Byte :=
  sipMessage
    ["INVITE sip:bob@honeypot SIP/2.0",
     "Via: SIP/2.0/TCP 10.0.0.1:5060;branch=z9hG4bK2",
     "Max-Forwards: 70",
     "From: <sip:al@honeypot>;tag=2",
     "To: <sip:bob@honeypot>",
     "Call-ID: 2@10.0.0.1",
     "CSeq: 2 INVITE",
     "Content-Length: 0"]

/-- The message the sample parser makes of `registerBytes`. -/
def fullRegisterMessage : Message SampleRequest SampleResponse :=
  Message.request { method := "REGISTER", line := asText (registerBytes.drop 9) }

/-- The message the sample parser makes of `inviteBytes`. -/
def fullInviteMessage : Message SampleRequest SampleResponse :=
  Message.request { method := "INVITE", line := asText (inviteBytes.drop 7) }

/-- A peer that sends a complete REGISTER request and then seven bytes that are
no SIP message. -/
def garbledPeer : World String String :=
  script [(registerBytes, none), (toBytes "garbage", none)] [] ("meta", none) none none

/-- The loop-head state of the handler on `garbledPeer` after the first pass. -/
def garbledState : State SampleRequest SampleResponse String String :=
  ignored sampleLib garbledPeer sampleInitial fullRegisterMessage

/-- The trace of the handler on `garbledPeer`. -/
def garbledTrace : List (Action SampleRequest SampleResponse String String) :=
  [Action.Read registerBytes none,
   Action.ParseMessage registerBytes none,
   Action.Append (readEvent registerBytes.length fullRegisterMessage),
   Action.Info "handling SIP register",
   Action.Read (toBytes "garbage") none,
   Action.ParseMessage (toBytes "garbage") (some "malformed start line"),
   Action.MetadataByConnection none,
   Action.Produce "sip" "meta" (toBytes "garbage" ++ registerBytes.drop 7)
     [{ Direction := "read", Payload := toBytes "garbage" ++ registerBytes.drop 7,
        Message := some fullRegisterMessage }] none,
   Action.Close none]

/-- A peer that sends a complete REGISTER request, then a complete INVITE
request, and then disconnects. -/
def twoRequestPeer : World String String :=
  script [(registerBytes, none), (inviteBytes, none)] [] ("meta", none) none none

/-- The loop-head state of the handler on `twoRequestPeer` after one pass. -/
def oneRequestState : State SampleRequest SampleResponse String String :=
  ignored sampleLib twoRequestPeer sampleInitial fullRegisterMessage

/-- The loop-head state of the handler on `twoRequestPeer` after two passes. -/
def twoRequestState : State SampleRequest SampleResponse String String :=
  ignored sampleLib twoRequestPeer oneRequestState fullInviteMessage

/-- The trace of the handler on `twoRequestPeer`. -/
def twoRequestTrace : List (Action SampleRequest SampleResponse String String) :=
  [Action.Read registerBytes none,
   Action.ParseMessage registerBytes none,
   Action.Append (readEvent registerBytes.length fullRegisterMessage),
   Action.Info "handling SIP register",
   Action.Read inviteBytes none,
   Action.ParseMessage inviteBytes none,
   Action.Append (readEvent inviteBytes.length fullInviteMessage),
   Action.Info "handling SIP invite",
   Action.Read [] (some "EOF"),
   Action.MetadataByConnection none,
   Action.Produce "sip" "meta" (inviteBytes ++ registerBytes.drop inviteBytes.length)
     [{ Direction := "read", Payload := inviteBytes ++ registerBytes.drop inviteBytes.length,
        Message := some fullRegisterMessage },
      { Direction := "read", Payload := inviteBytes, Message := some fullInviteMessage }] none,
   Action.Close none]

/-! ## The loop body, case by case -/

theorem take_read (data rest : List Byte) : (data ++ rest).take data.length = data := by
  simp

theorem iteration_parsed (lib : Lib Req Resp MsgID Err) (w : World Err MD)
    (s : State Req Resp Err MD) (msg : Message Req Resp)
    (hread : (w.Read s.reads).2 = none)
    (hparse : lib.ParseMessage (readData w s) = Except.ok msg) :
    iteration lib w s =
      (match msg with
       | Message.request r => dispatchRequest lib w (recorded w s msg) r
       | Message.response _ => Outcome.next (recorded w s msg)) := by
  unfold readData at hparse
  unfold iteration
  simp only [take_read, hread, hparse]
  cases msg <;> simp [recorded, readData, readEvent, List.append_assoc]

theorem iteration_readError (lib : Lib Req Resp MsgID Err) (w : World Err MD)
    (s : State Req Resp Err MD) (err : Err)
    (hread : (w.Read s.reads).2 = some err) :
    iteration lib w s = Outcome.exit err
      { s with buffer := readData w s ++ s.buffer.drop (readData w s).length,
               reads := s.reads + 1,
               trace := s.trace ++ [Action.Read (readData w s) (some err)] } := by
  unfold iteration
  simp only [hread, readData]

theorem iteration_parseError (lib : Lib Req Resp MsgID Err) (w : World Err MD)
    (s : State Req Resp Err MD) (err : Err)
    (hread : (w.Read s.reads).2 = none)
    (hparse : lib.ParseMessage (readData w s) = Except.error err) :
    iteration lib w s = Outcome.exit err
      { s with buffer := readData w s ++ s.buffer.drop (readData w s).length,
               reads := s.reads + 1,
               trace := s.trace ++ [Action.Read (readData w s) none,
                 Action.ParseMessage (readData w s) (some err)] } := by
  unfold readData at hparse
  unfold iteration
  simp only [take_read, hread, hparse]
  simp [readData, List.append_assoc]

theorem OPTIONS_ne_REGISTER : OPTIONS ≠ REGISTER := by decide

theorem OPTIONS_ne_INVITE : OPTIONS ≠ INVITE := by decide

theorem dispatchRequest_OPTIONS (lib : Lib Req Resp MsgID Err) (w : World Err MD)
    (s : State Req Resp Err MD) (req : Req) (hmethod : lib.Method req = OPTIONS) :
    dispatchRequest lib w s req =
      (match w.Write s.writes with
       | some err =>
         Outcome.exit err
           { s with server := { events := s.server.events ++ [writeEvent lib (responseTo lib req)] },
                    writes := s.writes + 1,
                    trace := s.trace ++ [Action.Info "handling SIP options",
                      Action.Append (writeEvent lib (responseTo lib req)),
                      Action.Write (toBytes (lib.ResponseString (responseTo lib req)))
                        (w.Write s.writes)] }
       | none =>
         Outcome.next
           { s with server := { events := s.server.events ++ [writeEvent lib (responseTo lib req)] },
                    writes := s.writes + 1,
                    trace := s.trace ++ [Action.Info "handling SIP options",
                      Action.Append (writeEvent lib (responseTo lib req)),
                      Action.Write (toBytes (lib.ResponseString (responseTo lib req)))
                        (w.Write s.writes)] }) := by
  unfold dispatchRequest
  simp only [hmethod, OPTIONS_ne_REGISTER, OPTIONS_ne_INVITE, if_false, if_true]
  rfl

theorem dispatchRequest_other (lib : Lib Req Resp MsgID Err) (w : World Err MD)
    (s : State Req Resp Err MD) (req : Req) (hmethod : lib.Method req ≠ OPTIONS) :
    dispatchRequest lib w s req =
      Outcome.next { s with trace := s.trace ++ dispatchLog lib (Message.request req) } := by
  unfold dispatchRequest dispatchLog
  by_cases h1 : lib.Method req = REGISTER
  · simp [h1]
  · by_cases h2 : lib.Method req = INVITE
    · have h3 : INVITE ≠ REGISTER := by decide
      simp [h2, h3]
    · simp [h1, h2, hmethod]

theorem iteration_next_cases (lib : Lib Req Resp MsgID Err) (w : World Err MD)
    (s s1 : State Req Resp Err MD) (h : iteration lib w s = Outcome.next s1) :
    (∃ msg, (w.Read s.reads).2 = none ∧ lib.ParseMessage (readData w s) = Except.ok msg ∧
        (∀ req, msg = Message.request req → lib.Method req ≠ OPTIONS) ∧
        s1 = ignored lib w s msg) ∨
    (∃ req, (w.Read s.reads).2 = none ∧
        lib.ParseMessage (readData w s) = Except.ok (Message.request req) ∧
        lib.Method req = OPTIONS ∧ w.Write s.writes = none ∧
        s1 = responded lib w s req) := by
  cases hread : (w.Read s.reads).2 with
  | some err => rw [iteration_readError lib w s err hread] at h; simp at h
  | none =>
    cases hparse : lib.ParseMessage (readData w s) with
    | error err => rw [iteration_parseError lib w s err hread hparse] at h; simp at h
    | ok msg =>
      rw [iteration_parsed lib w s msg hread hparse] at h
      cases msg with
      | response r =>
        simp only [Outcome.next.injEq] at h
        refine Or.inl ⟨Message.response r, rfl, rfl, ?_, ?_⟩
        · intro req hreq; simp at hreq
        · rw [← h]; simp [recorded, ignored, dispatchLog]
      | request r =>
        simp only at h
        by_cases hm : lib.Method r = OPTIONS
        · rw [dispatchRequest_OPTIONS lib w _ r hm] at h
          cases hw : w.Write (recorded w s (Message.request r)).writes with
          | some err => rw [hw] at h; simp at h
          | none =>
            rw [hw] at h
            simp only [Outcome.next.injEq] at h
            refine Or.inr ⟨r, rfl, rfl, hm, hw, ?_⟩
            rw [← h]
            simp [recorded, responded, List.append_assoc] at hw ⊢
            exact hw.symm
        · rw [dispatchRequest_other lib w _ r hm] at h
          simp only [Outcome.next.injEq] at h
          refine Or.inl ⟨Message.request r, rfl, rfl, ?_, ?_⟩
          · intro req hreq
            simp only [Message.request.injEq] at hreq
            subst hreq
            exact hm
          · rw [← h]; simp [recorded, ignored]

theorem iteration_exit_cases (lib : Lib Req Resp MsgID Err) (w : World Err MD)
    (s s1 : State Req Resp Err MD) (err : Err) (h : iteration lib w s = Outcome.exit err s1) :
    ((w.Read s.reads).2 = some err ∧ s1 = readFailed w s) ∨
    ((w.Read s.reads).2 = none ∧ lib.ParseMessage (readData w s) = Except.error err ∧
        s1 = parseFailed w s err) ∨
    (∃ req, (w.Read s.reads).2 = none ∧
        lib.ParseMessage (readData w s) = Except.ok (Message.request req) ∧
        lib.Method req = OPTIONS ∧ w.Write s.writes = some err ∧
        s1 = responded lib w s req) := by
  cases hread : (w.Read s.reads).2 with
  | some e =>
    rw [iteration_readError lib w s e hread] at h
    simp only [Outcome.exit.injEq] at h
    obtain ⟨rfl, rfl⟩ := h
    refine Or.inl ⟨rfl, ?_⟩
    simp [readFailed, hread]
  | none =>
    cases hparse : lib.ParseMessage (readData w s) with
    | error e =>
      rw [iteration_parseError lib w s e hread hparse] at h
      simp only [Outcome.exit.injEq] at h
      obtain ⟨rfl, rfl⟩ := h
      refine Or.inr (Or.inl ⟨rfl, rfl, ?_⟩)
      simp [parseFailed]
    | ok msg =>
      rw [iteration_parsed lib w s msg hread hparse] at h
      cases msg with
      | response r => simp at h
      | request r =>
        simp only at h
        by_cases hm : lib.Method r = OPTIONS
        · rw [dispatchRequest_OPTIONS lib w _ r hm] at h
          cases hw : w.Write (recorded w s (Message.request r)).writes with
          | none => rw [hw] at h; simp at h
          | some e =>
            rw [hw] at h
            simp only [Outcome.exit.injEq] at h
            obtain ⟨rfl, rfl⟩ := h
            refine Or.inr (Or.inr ⟨r, rfl, rfl, hm, ?_, ?_⟩)
            · simpa [recorded] using hw
            · simp [recorded, responded, List.append_assoc] at hw ⊢
              exact hw.symm
        · rw [dispatchRequest_other lib w _ r hm] at h
          simp at h

/-! ## Runs of the loop -/

theorem advance_snoc (lib : Lib Req Resp MsgID Err) (w : World Err MD) :
    ∀ (k : Nat) (s0 s s1 : State Req Resp Err MD),
      advance lib w k s0 = some s → iteration lib w s = Outcome.next s1 →
      advance lib w (k + 1) s0 = some s1 := by
  intro k
  induction k with
  | zero =>
    intro s0 s s1 h hit
    simp only [advance, Option.some.injEq] at h
    subst h
    simp [advance, hit]
  | succ k ih =>
    intro s0 s s1 h hit
    rw [advance] at h
    rw [advance]
    cases hs0 : iteration lib w s0 with
    | exit e t => rw [hs0] at h; simp at h
    | next t =>
      rw [hs0] at h
      simp only at h ⊢
      exact ih t s s1 h hit

theorem loop_of_advance (lib : Lib Req Resp MsgID Err) (w : World Err MD) :
    ∀ (k f : Nat) (s0 s : State Req Resp Err MD),
      advance lib w k s0 = some s → loop lib w (k + f) s0 = loop lib w f s := by
  intro k
  induction k with
  | zero =>
    intro f s0 s h
    simp only [advance, Option.some.injEq] at h
    subst h
    simp
  | succ k ih =>
    intro f s0 s h
    rw [advance] at h
    have hk : k + 1 + f = (k + f) + 1 := by omega
    rw [hk, loop]
    cases hs0 : iteration lib w s0 with
    | exit e t => rw [hs0] at h; simp at h
    | next t =>
      rw [hs0] at h
      simp only at h ⊢
      exact ih f t s h

theorem loop_exit_of_advance (lib : Lib Req Resp MsgID Err) (w : World Err MD)
    (k fuel : Nat) (s0 s s1 : State Req Resp Err MD) (err : Err)
    (h : advance lib w k s0 = some s) (hit : iteration lib w s = Outcome.exit err s1)
    (hfuel : k < fuel) : loop lib w fuel s0 = some (err, s1) := by
  obtain ⟨f, rfl⟩ : ∃ f, fuel = k + (f + 1) := ⟨fuel - k - 1, by omega⟩
  rw [loop_of_advance lib w k (f + 1) s0 s h, loop, hit]

theorem loop_some_elim (lib : Lib Req Resp MsgID Err) (w : World Err MD) :
    ∀ (fuel : Nat) (s0 s1 : State Req Resp Err MD) (err : Err),
      loop lib w fuel s0 = some (err, s1) →
      ∃ k s, k < fuel ∧ advance lib w k s0 = some s ∧
        iteration lib w s = Outcome.exit err s1 := by
  intro fuel
  induction fuel with
  | zero => intro s0 s1 err h; simp [loop] at h
  | succ fuel ih =>
    intro s0 s1 err h
    rw [loop] at h
    cases hs0 : iteration lib w s0 with
    | exit e t =>
      rw [hs0] at h
      simp only [Option.some.injEq, Prod.mk.injEq] at h
      obtain ⟨rfl, rfl⟩ := h
      exact ⟨0, s0, by omega, rfl, hs0⟩
    | next t =>
      rw [hs0] at h
      simp only at h
      obtain ⟨k, s, hk, hadv, hit⟩ := ih t s1 err h
      refine ⟨k + 1, s, by omega, ?_, hit⟩
      rw [advance, hs0]
      exact hadv
theorem iteration_ignored (lib : Lib Req Resp MsgID Err) (w : World Err MD)
    (s : State Req Resp Err MD) (msg : Message Req Resp)
    (hread : (w.Read s.reads).2 = none)
    (hparse : lib.ParseMessage (readData w s) = Except.ok msg)
    (hother : ∀ req, msg = Message.request req → lib.Method req ≠ OPTIONS) :
    iteration lib w s = Outcome.next (ignored lib w s msg) := by
  rw [iteration_parsed lib w s msg hread hparse]
  cases msg with
  | response r => simp [recorded, ignored, dispatchLog]
  | request r =>
    simp only
    rw [dispatchRequest_other lib w _ r (hother r rfl)]
    simp [recorded, ignored]

theorem iteration_responded (lib : Lib Req Resp MsgID Err) (w : World Err MD)
    (s : State Req Resp Err MD) (req : Req)
    (hread : (w.Read s.reads).2 = none)
    (hparse : lib.ParseMessage (readData w s) = Except.ok (Message.request req))
    (hmethod : lib.Method req = OPTIONS) :
    iteration lib w s =
      (match w.Write s.writes with
       | some err => Outcome.exit err (responded lib w s req)
       | none => Outcome.next (responded lib w s req)) := by
  rw [iteration_parsed lib w s _ hread hparse]
  simp only
  rw [dispatchRequest_OPTIONS lib w _ req hmethod]
  have hwr : (recorded w s (Message.request req)).writes = s.writes := rfl
  rw [hwr]
  cases hw : w.Write s.writes <;> simp [recorded, responded, List.append_assoc, hw]

theorem iteration_readFailed (lib : Lib Req Resp MsgID Err) (w : World Err MD)
    (s : State Req Resp Err MD) (err : Err) (hread : (w.Read s.reads).2 = some err) :
    iteration lib w s = Outcome.exit err (readFailed w s) := by
  rw [iteration_readError lib w s err hread]
  simp [readFailed, hread]

theorem iteration_parseFailed (lib : Lib Req Resp MsgID Err) (w : World Err MD)
    (s : State Req Resp Err MD) (err : Err) (hread : (w.Read s.reads).2 = none)
    (hparse : lib.ParseMessage (readData w s) = Except.error err) :
    iteration lib w s = Outcome.exit err (parseFailed w s err) := by
  rw [iteration_parseError lib w s err hread hparse]
  simp [parseFailed]


theorem advance_invariant (lib : Lib Req Resp MsgID Err) (w : World Err MD)
    (P : State Req Resp Err MD → Prop)
    (hstep : ∀ s s1, P s → iteration lib w s = Outcome.next s1 → P s1) :
    ∀ (k : Nat) (s0 s : State Req Resp Err MD),
      P s0 → advance lib w k s0 = some s → P s := by
  intro k
  induction k with
  | zero =>
    intro s0 s h0 h
    simp only [advance, Option.some.injEq] at h
    exact h ▸ h0
  | succ k ih =>
    intro s0 s h0 h
    rw [advance] at h
    cases hs0 : iteration lib w s0 with
    | exit e t => rw [hs0] at h; simp at h
    | next t =>
      rw [hs0] at h
      exact ih t s (hstep s0 t h0 hs0) h

/-! ## The finalizer -/

theorem finalizer_calls (lib : Lib Req Resp MsgID Err) (w : World Err MD)
    (s : State Req Resp Err MD) :
    (finalizer lib w s).filter Action.isFinalizerCall =
      [Action.MetadataByConnection w.MetadataByConnection.2,
       Action.Produce "sip" w.MetadataByConnection.1
         (resolve s.buffer (firstOrEmpty s.server.events).Payload)
         (s.server.events.map (observe s.buffer)) w.Produce,
       Action.Close w.Close] := by
  unfold finalizer logFailure
  cases w.MetadataByConnection.2 <;> cases w.Produce <;> cases w.Close <;>
    simp [List.filter, Action.isFinalizerCall, Action.isMetadata, Action.isProduce,
      Action.isClose]

theorem finalizer_errorLogs (lib : Lib Req Resp MsgID Err) (w : World Err MD)
    (s : State Req Resp Err MD) :
    (finalizer lib w s).countP Action.isErrorLog = failedSteps w := by
  unfold finalizer logFailure failedSteps
  cases w.MetadataByConnection.2 <;> cases w.Produce <;> cases w.Close <;>
    simp [List.countP_cons, Action.isErrorLog]

theorem finalizer_no_loopWork (lib : Lib Req Resp MsgID Err) (w : World Err MD)
    (s : State Req Resp Err MD) :
    ∀ a ∈ finalizer lib w s, a.isLoopWork = false ∧ a.loopError = none ∧ a.isWire = false := by
  unfold finalizer logFailure
  cases w.MetadataByConnection.2 <;> cases w.Produce <;> cases w.Close <;>
    simp [Action.isLoopWork, Action.loopError, Action.isWire]

theorem finalizer_count (lib : Lib Req Resp MsgID Err) (w : World Err MD)
    (s : State Req Resp Err MD) :
    (finalizer lib w s).countP Action.isMetadata = 1 ∧
    (finalizer lib w s).countP Action.isProduce = 1 ∧
    (finalizer lib w s).countP Action.isClose = 1 := by
  unfold finalizer logFailure
  cases w.MetadataByConnection.2 <;> cases w.Produce <;> cases w.Close <;>
    simp [List.countP_cons, Action.isMetadata, Action.isProduce, Action.isClose]

/-! ## Invariants of the loop -/

theorem dispatchLog_info (lib : Lib Req Resp MsgID Err) (msg : Message Req Resp) :
    ∀ a ∈ (dispatchLog lib msg : List (Action Req Resp Err MD)), ∃ m, a = Action.Info m := by
  intro a ha
  cases msg with
  | response r => simp [dispatchLog] at ha
  | request r =>
    unfold dispatchLog at ha
    simp only at ha
    split at ha
    · simp at ha; exact ⟨_, ha⟩
    · split at ha
      · simp at ha; exact ⟨_, ha⟩
      · simp at ha

theorem loop_trace_no_finalizer (lib : Lib Req Resp MsgID Err) (w : World Err MD)
    (k : Nat) (s : State Req Resp Err MD)
    (h : advance lib w k (initial : State Req Resp Err MD) = some s) :
    ∀ a ∈ s.trace, a.isFinalizerStep = false ∧ a.loopError = none := by
  refine advance_invariant lib w
    (fun t => ∀ a ∈ t.trace, a.isFinalizerStep = false ∧ a.loopError = none) ?_ k initial s ?_ h
  · intro t t1 ht hit a ha
    rcases iteration_next_cases lib w t t1 hit with
      ⟨msg, _, _, _, rfl⟩ | ⟨req, _, _, _, hw, rfl⟩
    · simp only [ignored, List.mem_append, List.mem_cons, List.mem_singleton,
        List.not_mem_nil, or_false] at ha
      rcases ha with (ha | ha | ha | ha) | ha
      · exact ht a ha
      · subst ha; simp [Action.isFinalizerStep, Action.loopError]
      · subst ha; simp [Action.isFinalizerStep, Action.loopError]
      · subst ha; simp [Action.isFinalizerStep, Action.loopError]
      · obtain ⟨m, rfl⟩ := dispatchLog_info lib msg a ha
        simp [Action.isFinalizerStep, Action.loopError]
    · simp only [responded, List.mem_append, List.mem_cons, List.mem_singleton,
        List.not_mem_nil, or_false] at ha
      rcases ha with ha | ha | ha | ha | ha | ha | ha
      · exact ht a ha
      all_goals subst ha; simp [Action.isFinalizerStep, Action.loopError, hw]
  · intro a ha
    simp [initial] at ha

/-! ## Terminating runs -/

theorem HandleSIP_some (lib : Lib Req Resp MsgID Err) (w : World Err MD) (fuel : Nat)
    (err : Err) (tr : List (Action Req Resp Err MD))
    (h : HandleSIP lib w fuel = some (err, tr)) :
    ∃ s1, loop lib w fuel initial = some (err, s1) ∧ tr = s1.trace ++ finalizer lib w s1 := by
  unfold HandleSIP at h
  cases hl : loop lib w fuel (initial : State Req Resp Err MD) with
  | none => rw [hl] at h; simp at h
  | some p =>
    obtain ⟨e, s1⟩ := p
    rw [hl] at h
    simp only [Option.some.injEq, Prod.mk.injEq] at h
    obtain ⟨rfl, rfl⟩ := h
    exact ⟨s1, rfl, rfl⟩

theorem HandleSIP_of_loop (lib : Lib Req Resp MsgID Err) (w : World Err MD) (fuel : Nat)
    (err : Err) (s1 : State Req Resp Err MD)
    (h : loop lib w fuel initial = some (err, s1)) :
    HandleSIP lib w fuel = some (err, s1.trace ++ finalizer lib w s1) := by
  unfold HandleSIP
  rw [h]

theorem firstError_append_none (pre ext : List (Action Req Resp Err MD))
    (h : ∀ a ∈ pre, a.loopError = none) : firstError (pre ++ ext) = firstError ext := by
  induction pre with
  | nil => rfl
  | cons a pre ih =>
    have ha : a.loopError = none := h a (List.mem_cons_self a pre)
    have hrest : ∀ b ∈ pre, b.loopError = none :=
      fun b hb => h b (List.mem_cons_of_mem a hb)
    have := ih hrest
    unfold firstError at this ⊢
    simp [List.findSome?, ha, this]

theorem firstError_append_some (pre ext : List (Action Req Resp Err MD)) (err : Err)
    (h : firstError pre = some err) : firstError (pre ++ ext) = some err := by
  induction pre with
  | nil => simp [firstError] at h
  | cons a pre ih =>
    unfold firstError at h ih ⊢
    cases ha : a.loopError with
    | some e => simp [List.findSome?, ha] at h ⊢; exact h
    | none =>
      simp only [List.findSome?, ha, List.cons_append] at h ⊢
      exact ih h

theorem final_trace (lib : Lib Req Resp MsgID Err) (w : World Err MD) (fuel : Nat)
    (err : Err) (s1 : State Req Resp Err MD)
    (h : loop lib w fuel initial = some (err, s1)) :
    (∀ a ∈ s1.trace, a.isFinalizerStep = false) ∧ firstError s1.trace = some err := by
  obtain ⟨k, s, _, hadv, hit⟩ := loop_some_elim lib w fuel initial s1 err h
  have hinv := loop_trace_no_finalizer lib w k s hadv
  have hnone : ∀ a ∈ s.trace, a.loopError = none := fun a ha => (hinv a ha).2
  rcases iteration_exit_cases lib w s s1 err hit with
    ⟨hr, rfl⟩ | ⟨_, _, rfl⟩ | ⟨req, _, _, _, hw, rfl⟩
  · constructor
    · intro a ha
      simp only [readFailed, List.mem_append, List.mem_singleton] at ha
      rcases ha with ha | ha
      · exact (hinv a ha).1
      · subst ha; rfl
    · simp only [readFailed]
      rw [firstError_append_none _ _ hnone]
      simp [firstError, List.findSome?, Action.loopError, hr]
  · constructor
    · intro a ha
      simp only [parseFailed, List.mem_append, List.mem_cons, List.mem_singleton,
        List.not_mem_nil, or_false] at ha
      rcases ha with ha | ha | ha
      · exact (hinv a ha).1
      · subst ha; rfl
      · subst ha; rfl
    · simp only [parseFailed]
      rw [firstError_append_none _ _ hnone]
      simp [firstError, List.findSome?, Action.loopError]
  · constructor
    · intro a ha
      simp only [responded, List.mem_append, List.mem_cons, List.mem_singleton,
        List.not_mem_nil, or_false] at ha
      rcases ha with ha | ha | ha | ha | ha | ha | ha
      · exact (hinv a ha).1
      all_goals subst ha; rfl
    · simp only [responded]
      rw [firstError_append_none _ _ hnone]
      simp [firstError, List.findSome?, Action.loopError, hw]

theorem not_finalizerStep (a : Action Req Resp Err MD) (h : a.isFinalizerStep = false) :
    a.isMetadata = false ∧ a.isProduce = false ∧ a.isClose = false ∧
      a.isErrorLog = false ∧ a.isFinalizerCall = false := by
  cases a <;> simp_all [Action.isFinalizerStep, Action.isMetadata, Action.isProduce,
    Action.isClose, Action.isErrorLog, Action.isFinalizerCall]

theorem countP_eq_zero_of_forall (p : Action Req Resp Err MD → Bool)
    (l : List (Action Req Resp Err MD)) (h : ∀ a ∈ l, p a = false) : l.countP p = 0 := by
  induction l with
  | nil => rfl
  | cons a l ih =>
    have ha : p a = false := h a (List.mem_cons_self a l)
    rw [List.countP_cons, ih (fun b hb => h b (List.mem_cons_of_mem a hb)), ha]
    simp

theorem filter_eq_nil_of_forall (p : Action Req Resp Err MD → Bool)
    (l : List (Action Req Resp Err MD)) (h : ∀ a ∈ l, p a = false) : l.filter p = [] := by
  induction l with
  | nil => rfl
  | cons a l ih =>
    have ha : p a = false := h a (List.mem_cons_self a l)
    simp [List.filter, ha, ih (fun b hb => h b (List.mem_cons_of_mem a hb))]

theorem iteration_congr (lib : Lib Req Resp MsgID Err) (w w2 : World Err MD)
    (hR : w2.Read = w.Read) (hW : w2.Write = w.Write) (s : State Req Resp Err MD) :
    iteration lib w2 s = iteration lib w s := by
  unfold iteration dispatchRequest
  rw [hR, hW]

theorem loop_congr (lib : Lib Req Resp MsgID Err) (w w2 : World Err MD)
    (hR : w2.Read = w.Read) (hW : w2.Write = w.Write) :
    ∀ (fuel : Nat) (s : State Req Resp Err MD), loop lib w2 fuel s = loop lib w fuel s := by
  intro fuel
  induction fuel with
  | zero => intro s; rfl
  | succ fuel ih =>
    intro s
    rw [loop, loop, iteration_congr lib w w2 hR hW s]
    cases iteration lib w s with
    | exit e t => rfl
    | next t => exact ih t

theorem HandleSIP_produce (lib : Lib Req Resp MsgID Err) (w : World Err MD) (fuel : Nat)
    (err : Err) (s1 : State Req Resp Err MD)
    (h : loop lib w fuel initial = some (err, s1)) :
    (s1.trace ++ finalizer lib w s1).filter Action.isProduce =
      [Action.Produce "sip" w.MetadataByConnection.1
        (resolve s1.buffer (firstOrEmpty s1.server.events).Payload)
        (s1.server.events.map (observe s1.buffer)) w.Produce] := by
  have hpre := (final_trace lib w fuel err s1 h).1
  rw [List.filter_append, filter_eq_nil_of_forall _ _
    (fun a ha => (not_finalizerStep a (hpre a ha)).2.1)]
  unfold finalizer logFailure
  cases w.MetadataByConnection.2 <;> cases w.Produce <;> cases w.Close <;>
    simp [List.filter, Action.isProduce]

/-! ## Events and wire operations -/

theorem wireOps_append (a b : List (Action Req Resp Err MD)) :
    wireOps (a ++ b) = wireOps a ++ wireOps b := by
  simp [wireOps]

theorem wireOps_dispatchLog (lib : Lib Req Resp MsgID Err) (msg : Message Req Resp) :
    wireOps (dispatchLog lib msg : List (Action Req Resp Err MD)) = [] := by
  apply filter_eq_nil_of_forall
  intro a ha
  obtain ⟨m, rfl⟩ := dispatchLog_info lib msg a ha
  rfl

theorem wireOps_finalizer (lib : Lib Req Resp MsgID Err) (w : World Err MD)
    (s : State Req Resp Err MD) : wireOps (finalizer lib w s) = [] :=
  filter_eq_nil_of_forall _ _ (fun a ha => (finalizer_no_loopWork lib w s a ha).2.2)

theorem createdBy_directions (lib : Lib Req Resp MsgID Err)
    (ops : List (Action Req Resp Err MD)) (evs : List (parsedSIP Req Resp))
    (h : List.Forall₂ (createdBy lib) ops evs) :
    evs.map parsedSIP.Direction = ops.map Action.direction := by
  induction h with
  | nil => rfl
  | @cons a e ops evs hae _ ih =>
    have hd : e.Direction = a.direction := by
      cases a with
      | Read data rerr =>
        cases rerr with
        | none => exact hae.1
        | some x => exact hae.elim
      | Write bytes werr => exact hae.1
      | ParseMessage _ _ => exact hae.elim
      | Append _ => exact hae.elim
      | Info _ => exact hae.elim
      | Error _ _ _ => exact hae.elim
      | MetadataByConnection _ => exact hae.elim
      | Produce _ _ _ _ _ => exact hae.elim
      | Close _ => exact hae.elim
    simp [hd, ih]

theorem wire_invariant (lib : Lib Req Resp MsgID Err) (w : World Err MD)
    (k : Nat) (s : State Req Resp Err MD)
    (h : advance lib w k (initial : State Req Resp Err MD) = some s) :
    List.Forall₂ (createdBy lib) (wireOps s.trace) s.server.events := by
  refine advance_invariant lib w
    (fun t => List.Forall₂ (createdBy lib) (wireOps t.trace) t.server.events) ?_ k initial s ?_ h
  · intro t t1 ht hit
    rcases iteration_next_cases lib w t t1 hit with
      ⟨msg, _, hp, _, rfl⟩ | ⟨req, _, hp, _, _, rfl⟩
    · simp only [ignored, wireOps_append, wireOps_dispatchLog, List.append_nil]
      refine List.rel_append ht ?_
      simp only [wireOps, List.filter, Action.isWire]
      exact List.Forall₂.cons ⟨rfl, rfl, msg, hp, rfl⟩ List.Forall₂.nil
    · simp only [responded, wireOps_append]
      refine List.rel_append ht ?_
      simp only [wireOps, List.filter, Action.isWire]
      exact List.Forall₂.cons ⟨rfl, rfl, _, hp, rfl⟩
        (List.Forall₂.cons ⟨rfl, rfl⟩ List.Forall₂.nil)
  · simp only [initial, wireOps, List.filter]
    exact List.Forall₂.nil

theorem final_wire (lib : Lib Req Resp MsgID Err) (w : World Err MD) (fuel : Nat)
    (err : Err) (s1 : State Req Resp Err MD)
    (h : loop lib w fuel initial = some (err, s1)) :
    ∃ ops rest, wireOps s1.trace = ops ++ rest ∧
      List.Forall₂ (createdBy lib) ops s1.server.events := by
  obtain ⟨k, s, _, hadv, hit⟩ := loop_some_elim lib w fuel initial s1 err h
  have hinv := wire_invariant lib w k s hadv
  rcases iteration_exit_cases lib w s s1 err hit with
    ⟨_, rfl⟩ | ⟨_, _, rfl⟩ | ⟨req, _, hp, _, _, rfl⟩
  · exact ⟨wireOps s.trace, wireOps [Action.Read (readData w s) (w.Read s.reads).2],
      by simp only [readFailed, wireOps_append], hinv⟩
  · exact ⟨wireOps s.trace,
      wireOps [Action.Read (readData w s) none, Action.ParseMessage (readData w s) (some err)],
      by simp only [parseFailed, wireOps_append], hinv⟩
  · refine ⟨wireOps (responded lib w s req).trace, [], by simp, ?_⟩
    simp only [responded, wireOps_append]
    refine List.rel_append hinv ?_
    simp only [wireOps, List.filter, Action.isWire]
    exact List.Forall₂.cons ⟨rfl, rfl, _, hp, rfl⟩
      (List.Forall₂.cons ⟨rfl, rfl⟩ List.Forall₂.nil)

/-! ## Termination -/

theorem iteration_next_reads (lib : Lib Req Resp MsgID Err) (w : World Err MD)
    (s s1 : State Req Resp Err MD) (h : iteration lib w s = Outcome.next s1) :
    s1.reads = s.reads + 1 := by
  rcases iteration_next_cases lib w s s1 h with ⟨msg, _, _, _, rfl⟩ | ⟨req, _, _, _, _, rfl⟩
  · rfl
  · rfl

/-- Once some read fails, the handler returns: if the read number `n` (counted
from the state `s0`) answers an error, `n + 1` passes are enough for the loop
to return. -/
theorem loop_terminates (lib : Lib Req Resp MsgID Err) (w : World Err MD) (e : Err) :
    ∀ (n : Nat) (s0 : State Req Resp Err MD), (w.Read (s0.reads + n)).2 = some e →
      ∃ r, loop lib w (n + 1) s0 = some r := by
  intro n
  induction n with
  | zero =>
    intro s0 h
    rw [loop, iteration_readFailed lib w s0 e (by simpa using h)]
    exact ⟨_, rfl⟩
  | succ n ih =>
    intro s0 h
    rw [loop]
    cases hit : iteration lib w s0 with
    | exit err t => exact ⟨_, rfl⟩
    | next t =>
      have hr := iteration_next_reads lib w s0 t hit
      have h2 : (w.Read (t.reads + n)).2 = some e := by
        rw [hr]
        have : s0.reads + 1 + n = s0.reads + (n + 1) := by omega
        rw [this]
        exact h
      exact ih t h2

/-- A peer that disconnects makes the handler return: if the `n`-th read of the
connection answers an error, `HandleSIP` returns within `n + 1` passes. -/
theorem HandleSIP_terminates (lib : Lib Req Resp MsgID Err) (w : World Err MD) (e : Err)
    (n : Nat) (h : (w.Read n).2 = some e) :
    ∃ err tr, HandleSIP lib w (n + 1) = some (err, tr) := by
  have h0 : (w.Read ((initial : State Req Resp Err MD).reads + n)).2 = some e := by
    simpa [initial] using h
  obtain ⟨⟨err, s1⟩, hl⟩ := loop_terminates lib w e n initial h0
  exact ⟨err, _, HandleSIP_of_loop lib w (n + 1) err s1 hl⟩

theorem loop_fuel_mono (lib : Lib Req Resp MsgID Err) (w : World Err MD) :
    ∀ (fuel extra : Nat) (s : State Req Resp Err MD) (r : Err × State Req Resp Err MD),
      loop lib w fuel s = some r → loop lib w (fuel + extra) s = some r := by
  intro fuel
  induction fuel with
  | zero => intro extra s r h; simp [loop] at h
  | succ fuel ih =>
    intro extra s r h
    have hk : fuel + 1 + extra = (fuel + extra) + 1 := by omega
    rw [hk, loop]
    rw [loop] at h
    cases hit : iteration lib w s with
    | exit err t => rw [hit] at h; exact h
    | next t =>
      rw [hit] at h
      exact ih extra t r h

/-- The result of a terminating run does not depend on the fuel: more passes
allowed give the same returned error and the same trace. -/
theorem HandleSIP_fuel_mono (lib : Lib Req Resp MsgID Err) (w : World Err MD)
    (fuel extra : Nat) (err : Err) (tr : List (Action Req Resp Err MD))
    (h : HandleSIP lib w fuel = some (err, tr)) :
    HandleSIP lib w (fuel + extra) = some (err, tr) := by
  obtain ⟨s1, hloop, rfl⟩ := HandleSIP_some lib w fuel err tr h
  exact HandleSIP_of_loop lib w (fuel + extra) err s1
    (loop_fuel_mono lib w fuel extra initial _ hloop)

/-! ## The reused buffer -/

theorem advance_succ_inv (lib : Lib Req Resp MsgID Err) (w : World Err MD) :
    ∀ (k : Nat) (s0 s s1 : State Req Resp Err MD),
      advance lib w k s0 = some s → advance lib w (k + 1) s0 = some s1 →
      iteration lib w s = Outcome.next s1 := by
  intro k
  induction k with
  | zero =>
    intro s0 s s1 h h1
    simp only [advance, Option.some.injEq] at h
    subst h
    rw [advance] at h1
    cases hit : iteration lib w s0 with
    | exit e t => rw [hit] at h1; simp at h1
    | next t =>
      rw [hit] at h1
      simp only [advance, Option.some.injEq] at h1
      rw [h1]
  | succ k ih =>
    intro s0 s s1 h h1
    rw [advance] at h h1
    cases hit : iteration lib w s0 with
    | exit e t => rw [hit] at h; simp at h
    | next t =>
      rw [hit] at h h1
      exact ih t s s1 h h1

theorem take_overwritten (first second rest : List Byte) :
    (second ++ (first ++ rest).drop second.length).take first.length =
      overwrite first second := by
  unfold overwrite
  rw [List.drop_append_eq_append_drop, ← List.append_assoc]
  apply List.take_append_of_le_length
  simp only [List.length_append, List.length_drop]
  omega

theorem overwrite_ne (first second : List Byte)
    (hdiff : ∃ (i : Nat) (b1 b2 : Byte), first[i]? = some b1 ∧ second[i]? = some b2 ∧ b1 ≠ b2) :
    overwrite first second ≠ first := by
  obtain ⟨i, b1, b2, h1, h2, hne⟩ := hdiff
  intro heq
  have hi1 : i < first.length := by
    rcases Nat.lt_or_ge i first.length with h | h
    · exact h
    · rw [List.getElem?_eq_none h] at h1; simp at h1
  have hi2 : i < second.length := by
    rcases Nat.lt_or_ge i second.length with h | h
    · exact h
    · rw [List.getElem?_eq_none h] at h2; simp at h2
  have hget : (overwrite first second)[i]? = some b2 := by
    unfold overwrite
    rw [List.getElem?_take_of_lt hi1, List.getElem?_append_left hi2]
    exact h2
  rw [heq, h1] at hget
  simp only [Option.some.injEq] at hget
  exact hne hget

/-- Whatever a pass does, it reads into the start of the one buffer and keeps
the event records it found, adding at most new ones behind them. -/
theorem iteration_buffer_events (lib : Lib Req Resp MsgID Err) (w : World Err MD)
    (s s1 : State Req Resp Err MD)
    (h : iteration lib w s = Outcome.next s1 ∨ ∃ err, iteration lib w s = Outcome.exit err s1) :
    s1.buffer = readData w s ++ s.buffer.drop (readData w s).length ∧
    ∃ added, s1.server.events = s.server.events ++ added := by
  rcases h with h | ⟨err, h⟩
  · rcases iteration_next_cases lib w s s1 h with ⟨msg, _, _, _, rfl⟩ | ⟨req, _, _, _, _, rfl⟩
    · exact ⟨rfl, _, rfl⟩
    · exact ⟨rfl, _, rfl⟩
  · rcases iteration_exit_cases lib w s s1 err h with
      ⟨_, rfl⟩ | ⟨_, _, rfl⟩ | ⟨req, _, _, _, _, rfl⟩
    · exact ⟨rfl, [], by simp [readFailed]⟩
    · exact ⟨rfl, [], by simp [parseFailed]⟩
    · exact ⟨rfl, _, rfl⟩

/-- A pass that accepts the bytes it read and returns to the loop head leaves
the `read` event of these bytes at the position where the log ended before. -/
theorem iteration_next_records (lib : Lib Req Resp MsgID Err) (w : World Err MD)
    (s s1 : State Req Resp Err MD) (msg : Message Req Resp)
    (hparse : lib.ParseMessage (readData w s) = Except.ok msg)
    (h : iteration lib w s = Outcome.next s1) :
    s1.buffer = readData w s ++ s.buffer.drop (readData w s).length ∧
    ∃ after, s1.server.events =
      s.server.events ++ readEvent (readData w s).length msg :: after := by
  rcases iteration_next_cases lib w s s1 h with ⟨m, _, hp, _, rfl⟩ | ⟨req, _, hp, _, _, rfl⟩
  · rw [hparse] at hp
    simp only [Except.ok.injEq] at hp
    subst hp
    exact ⟨rfl, [], rfl⟩
  · rw [hparse] at hp
    simp only [Except.ok.injEq] at hp
    subst hp
    exact ⟨rfl, [writeEvent lib (responseTo lib req)], rfl⟩

/-- The event recorded for a read, seen after the next read went into the
buffer: its payload is the first one overwritten by the second. -/
theorem observe_after_next_read (first second rest : List Byte) (msg : Message Req Resp) :
    observe (second ++ (first ++ rest).drop second.length) (readEvent first.length msg) =
      ({ Direction := "read", Payload := overwrite first second, Message := some msg } :
        Event Req Resp) := by
  simp only [observe, readEvent, resolve, take_overwritten]

theorem getElem?_map_middle {α β : Type} (f : α → β) (pre post : List α) (x : α) :
    ((pre ++ x :: post).map f)[pre.length]? = some (f x) := by
  rw [List.map_append, List.map_cons,
    List.getElem?_append_right (by simp : (List.map f pre).length ≤ pre.length)]
  simp

/-! ## The dispatcher and the responder -/

/-- C1: in every run, a read whose bytes parse to an OPTIONS request and whose
response write succeeds takes the loop back to its head with exactly two more
events: the `read` event, then one `write` event whose message is the response
built from the request with the request's message identity, status 200, empty
reason and empty body, and whose payload is the serialised text of that
response; the same bytes are the argument of the one `conn.Write` call. -/
theorem options_request_gets_one_response (lib : Lib Req Resp MsgID Err) (w : World Err MD)
    (k : Nat) (s : State Req Resp Err MD) (req : Req)
    (hrun : advance lib w k initial = some s)
    (hread : (w.Read s.reads).2 = none)
    (hparse : lib.ParseMessage (readData w s) = Except.ok (Message.request req))
    (hmethod : lib.Method req = OPTIONS)
    (hwrite : w.Write s.writes = none) :
    ∃ s1, advance lib w (k + 1) initial = some s1 ∧
      s1.server.events = s.server.events ++
        [{ Direction := "read", Payload := ByteSlice.ofBuffer (readData w s).length,
           Message := some (Message.request req) },
         { Direction := "write",
           Payload := ByteSlice.fresh (toBytes (lib.ResponseString
             (lib.NewResponseFromRequest (lib.MessageID req) req 200 "" ""))),
           Message := some (Message.response
             (lib.NewResponseFromRequest (lib.MessageID req) req 200 "" "")) }] ∧
      s1.server.events.map (observe s1.buffer) = s.server.events.map (observe s1.buffer) ++
        [{ Direction := "read", Payload := readData w s,
           Message := some (Message.request req) },
         { Direction := "write",
           Payload := toBytes (lib.ResponseString
             (lib.NewResponseFromRequest (lib.MessageID req) req 200 "" "")),
           Message := some (Message.response
             (lib.NewResponseFromRequest (lib.MessageID req) req 200 "" "")) }] ∧
      s1.trace = s.trace ++
        [Action.Read (readData w s) none,
         Action.ParseMessage (readData w s) none,
         Action.Append (readEvent (readData w s).length (Message.request req)),
         Action.Info "handling SIP options",
         Action.Append (writeEvent lib (responseTo lib req)),
         Action.Write (toBytes (lib.ResponseString
           (lib.NewResponseFromRequest (lib.MessageID req) req 200 "" ""))) none] := by
  have hit : iteration lib w s = Outcome.next (responded lib w s req) := by
    rw [iteration_responded lib w s req hread hparse hmethod, hwrite]
  refine ⟨responded lib w s req, advance_snoc lib w k initial s _ hrun hit, ?_, ?_, ?_⟩
  · simp [responded, readEvent, writeEvent, responseTo]
  · simp [responded, readEvent, writeEvent, responseTo, observe, resolve]
  · simp [responded, responseTo, hwrite]

/-- C1 at the sample peer: the first read of `optionsPeer` is an OPTIONS request
and its write succeeds. -/
theorem options_request_gets_one_response_witness :
    (advance sampleLib optionsPeer 0 initial = some sampleInitial ∧
      (optionsPeer.Read sampleInitial.reads).2 = none ∧
      sampleLib.ParseMessage (readData optionsPeer sampleInitial)
        = Except.ok (Message.request optionsRequest) ∧
      sampleLib.Method optionsRequest = OPTIONS ∧
      optionsPeer.Write sampleInitial.writes = none) ∧
    ∃ s1, advance sampleLib optionsPeer (0 + 1) initial = some s1 ∧
      s1.server.events = sampleInitial.server.events ++
        [{ Direction := "read",
           Payload := ByteSlice.ofBuffer (readData optionsPeer sampleInitial).length,
           Message := some (Message.request optionsRequest) },
         { Direction := "write",
           Payload := ByteSlice.fresh (toBytes (sampleLib.ResponseString
             (sampleLib.NewResponseFromRequest (sampleLib.MessageID optionsRequest)
               optionsRequest 200 "" ""))),
           Message := some (Message.response
             (sampleLib.NewResponseFromRequest (sampleLib.MessageID optionsRequest)
               optionsRequest 200 "" "")) }] ∧
      s1.server.events.map (observe s1.buffer) = sampleInitial.server.events.map (observe s1.buffer) ++
        [{ Direction := "read", Payload := readData optionsPeer sampleInitial,
           Message := some (Message.request optionsRequest) },
         { Direction := "write",
           Payload := toBytes (sampleLib.ResponseString
             (sampleLib.NewResponseFromRequest (sampleLib.MessageID optionsRequest)
               optionsRequest 200 "" "")),
           Message := some (Message.response
             (sampleLib.NewResponseFromRequest (sampleLib.MessageID optionsRequest)
               optionsRequest 200 "" "")) }] ∧
      s1.trace = sampleInitial.trace ++
        [Action.Read (readData optionsPeer sampleInitial) none,
         Action.ParseMessage (readData optionsPeer sampleInitial) none,
         Action.Append (readEvent (readData optionsPeer sampleInitial).length
           (Message.request optionsRequest)),
         Action.Info "handling SIP options",
         Action.Append (writeEvent sampleLib (responseTo sampleLib optionsRequest)),
         Action.Write (toBytes (sampleLib.ResponseString
           (sampleLib.NewResponseFromRequest (sampleLib.MessageID optionsRequest)
             optionsRequest 200 "" ""))) none] :=
  ⟨⟨rfl, rfl, rfl, rfl, rfl⟩,
    options_request_gets_one_response sampleLib optionsPeer 0 sampleInitial optionsRequest
      rfl rfl rfl rfl rfl⟩

/-- C2: in every run, a read whose bytes parse to anything but an OPTIONS
request (a REGISTER, an INVITE, a request with another method, a response)
takes the loop back to its head with exactly one more event, the `read` event;
the pass performs no `conn.Write` and appends no `write` event: after the
append it only writes the informational log line of the dispatcher, if any. -/
theorem other_message_is_only_recorded (lib : Lib Req Resp MsgID Err) (w : World Err MD)
    (k : Nat) (s : State Req Resp Err MD) (msg : Message Req Resp)
    (hrun : advance lib w k initial = some s)
    (hread : (w.Read s.reads).2 = none)
    (hparse : lib.ParseMessage (readData w s) = Except.ok msg)
    (hother : ∀ req, msg = Message.request req → lib.Method req ≠ OPTIONS) :
    ∃ s1, advance lib w (k + 1) initial = some s1 ∧
      s1.server.events = s.server.events ++
        [{ Direction := "read", Payload := ByteSlice.ofBuffer (readData w s).length,
           Message := some msg }] ∧
      s1.writes = s.writes ∧
      s1.trace = s.trace ++
        [Action.Read (readData w s) none,
         Action.ParseMessage (readData w s) none,
         Action.Append (readEvent (readData w s).length msg)] ++ dispatchLog lib msg ∧
      (∀ a ∈ (dispatchLog lib msg : List (Action Req Resp Err MD)), ∃ m, a = Action.Info m) ∧
      (∀ a ∈ s1.trace.drop s.trace.length, ∀ bytes err, a ≠ Action.Write bytes err) := by
  have hit := iteration_ignored lib w s msg hread hparse hother
  refine ⟨ignored lib w s msg, advance_snoc lib w k initial s _ hrun hit, ?_, rfl, rfl,
    dispatchLog_info lib msg, ?_⟩
  · simp [ignored, readEvent]
  · intro a ha bytes err hEq
    subst hEq
    simp only [ignored, List.append_assoc, List.drop_left, List.mem_append, List.mem_cons,
      List.mem_singleton, List.not_mem_nil, or_false] at ha
    rcases ha with ha | ha
    · simp at ha
    · obtain ⟨m, hm⟩ := dispatchLog_info lib msg _ ha
      simp at hm

/-- C2 at the sample peer: the first read of `registerPeer` is a REGISTER
request. -/
theorem other_message_is_only_recorded_witness :
    (advance sampleLib registerPeer 0 initial = some sampleInitial ∧
      (registerPeer.Read sampleInitial.reads).2 = none ∧
      sampleLib.ParseMessage (readData registerPeer sampleInitial)
        = Except.ok registerMessage ∧
      (∀ req, registerMessage = Message.request req →
        sampleLib.Method req ≠ OPTIONS)) ∧
    ∃ s1, advance sampleLib registerPeer (0 + 1) initial = some s1 ∧
      s1.server.events = sampleInitial.server.events ++
        [{ Direction := "read",
           Payload := ByteSlice.ofBuffer (readData registerPeer sampleInitial).length,
           Message := some registerMessage }] ∧
      s1.writes = sampleInitial.writes ∧
      s1.trace = sampleInitial.trace ++
        [Action.Read (readData registerPeer sampleInitial) none,
         Action.ParseMessage (readData registerPeer sampleInitial) none,
         Action.Append (readEvent (readData registerPeer sampleInitial).length
           registerMessage)]
          ++ dispatchLog sampleLib registerMessage ∧
      (∀ a ∈ (dispatchLog sampleLib registerMessage :
          List (Action SampleRequest SampleResponse String String)), ∃ m, a = Action.Info m) ∧
      (∀ a ∈ s1.trace.drop sampleInitial.trace.length, ∀ bytes err,
        a ≠ Action.Write bytes err) :=
  ⟨⟨rfl, rfl, rfl, by
      intro req hreq
      simp only [registerMessage, Message.request.injEq] at hreq
      subst hreq
      decide⟩,
    other_message_is_only_recorded sampleLib registerPeer 0 sampleInitial
      registerMessage rfl rfl rfl (by
        intro req hreq
        simp only [registerMessage, Message.request.injEq] at hreq
        subst hreq
        decide)⟩
/-! ## The finalizer in terminating runs -/

/-- C3: in every terminating run, whichever error ended the loop, the trace
holds exactly one `MetadataByConnection` call, exactly one `Produce` call and
exactly one `Close` call; they come after all of the loop's work: the trace
splits into a part without any finalizer step and a part that starts with the
metadata lookup and holds no read, parse, write or event append. -/
theorem finalizer_runs_exactly_once (lib : Lib Req Resp MsgID Err) (w : World Err MD)
    (fuel : Nat) (err : Err) (tr : List (Action Req Resp Err MD))
    (hrun : HandleSIP lib w fuel = some (err, tr)) :
    tr.countP Action.isMetadata = 1 ∧ tr.countP Action.isProduce = 1 ∧
    tr.countP Action.isClose = 1 ∧
    ∃ before after, tr = before ++ after ∧
      (∀ a ∈ before, a.isFinalizerStep = false) ∧
      after.head? = some (Action.MetadataByConnection w.MetadataByConnection.2) ∧
      (∀ a ∈ after, a.isLoopWork = false) := by
  obtain ⟨s1, hloop, rfl⟩ := HandleSIP_some lib w fuel err tr hrun
  have hpre := (final_trace lib w fuel err s1 hloop).1
  have hcount := finalizer_count lib w s1
  refine ⟨?_, ?_, ?_, s1.trace, finalizer lib w s1, rfl, hpre, ?_, ?_⟩
  · rw [List.countP_append, countP_eq_zero_of_forall _ _
      (fun a ha => (not_finalizerStep a (hpre a ha)).1), hcount.1]
  · rw [List.countP_append, countP_eq_zero_of_forall _ _
      (fun a ha => (not_finalizerStep a (hpre a ha)).2.1), hcount.2.1]
  · rw [List.countP_append, countP_eq_zero_of_forall _ _
      (fun a ha => (not_finalizerStep a (hpre a ha)).2.2.1), hcount.2.2]
  · simp [finalizer]
  · exact fun a ha => (finalizer_no_loopWork lib w s1 a ha).1

/-- C3 at the sample peer: `silentPeer` fails the very first read. -/
theorem finalizer_runs_exactly_once_witness :
    HandleSIP sampleLib silentPeer 1 = some ("EOF", silentTrace) ∧
    (silentTrace.countP Action.isMetadata = 1 ∧ silentTrace.countP Action.isProduce = 1 ∧
    silentTrace.countP Action.isClose = 1 ∧
    ∃ before after, silentTrace = before ++ after ∧
      (∀ a ∈ before, a.isFinalizerStep = false) ∧
      after.head? = some (Action.MetadataByConnection silentPeer.MetadataByConnection.2) ∧
      (∀ a ∈ after, a.isLoopWork = false)) :=
  ⟨by decide, finalizer_runs_exactly_once sampleLib silentPeer 1 "EOF" silentTrace (by decide)⟩

/-- C4: in every terminating run the trace holds one `Produce` call; it
receives the tag "sip", the metadata the lookup returned, the whole event
sequence of the loop's final state as the sink sees it, and as first payload
the payload of the first of these events, or no bytes when there is none; with
no event recorded the call is still made, with an empty payload and an empty
event sequence. -/
theorem produce_receives_session (lib : Lib Req Resp MsgID Err) (w : World Err MD)
    (fuel : Nat) (err : Err) (tr : List (Action Req Resp Err MD))
    (hrun : HandleSIP lib w fuel = some (err, tr)) :
    ∃ s, loop lib w fuel initial = some (err, s) ∧
      tr.filter Action.isProduce =
        [Action.Produce "sip" w.MetadataByConnection.1
          (firstPayload (s.server.events.map (observe s.buffer)))
          (s.server.events.map (observe s.buffer)) w.Produce] ∧
      (s.server.events = [] →
        tr.filter Action.isProduce =
          [Action.Produce "sip" w.MetadataByConnection.1 [] [] w.Produce]) := by
  obtain ⟨s1, hloop, rfl⟩ := HandleSIP_some lib w fuel err tr hrun
  have hpre := (final_trace lib w fuel err s1 hloop).1
  have hfilter : (s1.trace ++ finalizer lib w s1).filter Action.isProduce =
      [Action.Produce "sip" w.MetadataByConnection.1
        (resolve s1.buffer (firstOrEmpty s1.server.events).Payload)
        (s1.server.events.map (observe s1.buffer)) w.Produce] := by
    rw [List.filter_append, filter_eq_nil_of_forall _ _
      (fun a ha => (not_finalizerStep a (hpre a ha)).2.1)]
    unfold finalizer logFailure
    cases w.MetadataByConnection.2 <;> cases w.Produce <;> cases w.Close <;>
      simp [List.filter, Action.isProduce]
  refine ⟨s1, hloop, ?_, ?_⟩
  · rw [hfilter]
    cases hev : s1.server.events with
    | nil => simp [firstOrEmpty, firstPayload, resolve, default]
    | cons e es => simp [firstOrEmpty, firstPayload, observe]
  · intro hev
    rw [hfilter, hev]
    simp [firstOrEmpty, resolve, default]

/-- C4 at the sample peer: `registerPeer` sends one REGISTER request and then
disconnects. -/
theorem produce_receives_session_witness :
    HandleSIP sampleLib registerPeer 2 = some ("EOF", registerTrace) ∧
    ∃ s, loop sampleLib registerPeer 2 initial = some ("EOF", s) ∧
      registerTrace.filter Action.isProduce =
        [Action.Produce "sip" registerPeer.MetadataByConnection.1
          (firstPayload (s.server.events.map (observe s.buffer)))
          (s.server.events.map (observe s.buffer)) registerPeer.Produce] ∧
      (s.server.events = [] →
        registerTrace.filter Action.isProduce =
          [Action.Produce "sip" registerPeer.MetadataByConnection.1 [] []
            registerPeer.Produce]) :=
  ⟨by decide, produce_receives_session sampleLib registerPeer 2 "EOF" registerTrace (by decide)⟩

/-- C5: in every terminating run, whatever the finalizer's collaborators
answer, its three calls are made in the order metadata lookup, `Produce`,
`Close`: a failed lookup does not prevent `Produce` or `Close`, a failed
`Produce` does not prevent `Close`; the error log entries of the trace are one
per failed step. -/
theorem finalizer_steps_run_in_order (lib : Lib Req Resp MsgID Err) (w : World Err MD)
    (fuel : Nat) (err : Err) (tr : List (Action Req Resp Err MD))
    (hrun : HandleSIP lib w fuel = some (err, tr)) :
    (∃ payload events, tr.filter Action.isFinalizerCall =
      [Action.MetadataByConnection w.MetadataByConnection.2,
       Action.Produce "sip" w.MetadataByConnection.1 payload events w.Produce,
       Action.Close w.Close]) ∧
    tr.countP Action.isErrorLog = failedSteps w := by
  obtain ⟨s1, hloop, rfl⟩ := HandleSIP_some lib w fuel err tr hrun
  have hpre := (final_trace lib w fuel err s1 hloop).1
  constructor
  · refine ⟨resolve s1.buffer (firstOrEmpty s1.server.events).Payload,
      s1.server.events.map (observe s1.buffer), ?_⟩
    rw [List.filter_append, filter_eq_nil_of_forall _ _
      (fun a ha => (not_finalizerStep a (hpre a ha)).2.2.2.2), List.nil_append]
    exact finalizer_calls lib w s1
  · rw [List.countP_append, countP_eq_zero_of_forall _ _
      (fun a ha => (not_finalizerStep a (hpre a ha)).2.2.2.1), finalizer_errorLogs]
    simp

/-- C5 at the sample peer: with `faultySink` the lookup, `Produce` and `Close`
all fail. -/
theorem finalizer_steps_run_in_order_witness :
    HandleSIP sampleLib faultySink 1 = some ("EOF", faultyTrace) ∧
    ((∃ payload events, faultyTrace.filter Action.isFinalizerCall =
      [Action.MetadataByConnection faultySink.MetadataByConnection.2,
       Action.Produce "sip" faultySink.MetadataByConnection.1 payload events
         faultySink.Produce,
       Action.Close faultySink.Close]) ∧
    faultyTrace.countP Action.isErrorLog = failedSteps faultySink) :=
  ⟨by decide, finalizer_steps_run_in_order sampleLib faultySink 1 "EOF" faultyTrace (by decide)⟩

/-! ## Order of the events -/

/-- C8: in every terminating run the events handed to `Produce` are in wire
order: the N-th stored event is the record of the N-th read or write made on
the connection (`createdBy`), for every N up to the number of events, so the
directions of the events are an initial segment of the directions of the wire
operations. -/
theorem events_follow_wire_order (lib : Lib Req Resp MsgID Err) (w : World Err MD)
    (fuel : Nat) (err : Err) (tr : List (Action Req Resp Err MD))
    (hrun : HandleSIP lib w fuel = some (err, tr)) :
    ∃ s payload, loop lib w fuel initial = some (err, s) ∧
      tr.filter Action.isProduce =
        [Action.Produce "sip" w.MetadataByConnection.1 payload
          (s.server.events.map (observe s.buffer)) w.Produce] ∧
      s.server.events.length ≤ (wireOps tr).length ∧
      List.Forall₂ (createdBy lib) ((wireOps tr).take s.server.events.length) s.server.events ∧
      ∃ later, (wireOps tr).map Action.direction =
        (s.server.events.map (observe s.buffer)).map Event.Direction ++ later := by
  obtain ⟨s1, hloop, rfl⟩ := HandleSIP_some lib w fuel err tr hrun
  obtain ⟨ops, rest, hops, hall⟩ := final_wire lib w fuel err s1 hloop
  have hlen : ops.length = s1.server.events.length := List.Forall₂.length_eq hall
  have hwire : wireOps (s1.trace ++ finalizer lib w s1) = ops ++ rest := by
    rw [wireOps_append, wireOps_finalizer, List.append_nil, hops]
  refine ⟨s1, _, hloop, HandleSIP_produce lib w fuel err s1 hloop, ?_, ?_, ?_⟩
  · rw [hwire, List.length_append]; omega
  · rw [hwire, List.take_left' hlen]
    exact hall
  · refine ⟨rest.map Action.direction, ?_⟩
    rw [hwire, List.map_append, ← createdBy_directions lib ops s1.server.events hall]
    simp [observe, Function.comp_def]

/-- C8 at the sample peer: the run on `optionsPeer` has three wire operations
and two events. -/
theorem events_follow_wire_order_witness :
    HandleSIP sampleLib optionsPeer 2 = some ("EOF", optionsTrace) ∧
    ∃ s payload, loop sampleLib optionsPeer 2 initial = some ("EOF", s) ∧
      optionsTrace.filter Action.isProduce =
        [Action.Produce "sip" optionsPeer.MetadataByConnection.1 payload
          (s.server.events.map (observe s.buffer)) optionsPeer.Produce] ∧
      s.server.events.length ≤ (wireOps optionsTrace).length ∧
      List.Forall₂ (createdBy sampleLib) ((wireOps optionsTrace).take s.server.events.length)
        s.server.events ∧
      ∃ later, (wireOps optionsTrace).map Action.direction =
        (s.server.events.map (observe s.buffer)).map Event.Direction ++ later :=
  ⟨by decide, events_follow_wire_order sampleLib optionsPeer 2 "EOF" optionsTrace (by decide)⟩

/-! ## The returned error -/

/-- C9: in every terminating run the value returned is the first error
answered by a read, the parser or a write in the trace, as it was answered;
the answers of `MetadataByConnection`, `Produce` and `Close` have no part in
it: a world that differs only in them returns the same value. -/
theorem returns_first_loop_error (lib : Lib Req Resp MsgID Err) (w : World Err MD)
    (fuel : Nat) (err : Err) (tr : List (Action Req Resp Err MD))
    (hrun : HandleSIP lib w fuel = some (err, tr)) :
    firstError tr = some err ∧
    ∀ w2 : World Err MD, w2.Read = w.Read → w2.Write = w.Write →
      ∃ tr2, HandleSIP lib w2 fuel = some (err, tr2) := by
  obtain ⟨s1, hloop, rfl⟩ := HandleSIP_some lib w fuel err tr hrun
  constructor
  · exact firstError_append_some _ _ err (final_trace lib w fuel err s1 hloop).2
  · intro w2 hR hW
    have h2 : loop lib w2 fuel initial = some (err, s1) := by
      rw [loop_congr lib w w2 hR hW fuel initial]
      exact hloop
    exact ⟨_, HandleSIP_of_loop lib w2 fuel err s1 h2⟩

/-- C9 at the sample peer: `malformedPeer` sends a REGISTER request and then
bytes that do not parse. -/
theorem returns_first_loop_error_witness :
    HandleSIP sampleLib malformedPeer 2 = some ("malformed start line", malformedTrace) ∧
    (firstError malformedTrace = some "malformed start line" ∧
    ∀ w2 : World String String, w2.Read = malformedPeer.Read →
      w2.Write = malformedPeer.Write →
      ∃ tr2, HandleSIP sampleLib w2 2 = some ("malformed start line", tr2)) :=
  ⟨by decide,
    returns_first_loop_error sampleLib malformedPeer 2 "malformed start line" malformedTrace
      (by decide)⟩

/-- C10: when a read parses to an OPTIONS request and the write of its response
fails, the handler returns the write error whenever it is given time to reach
that pass; the trace shows the `write` event appended before the failed write
and nothing of the loop after it, only the finalizer; the events handed to
`Produce` end with the `read` event of the request followed by the `write`
event of the response. -/
theorem write_failure_ends_run (lib : Lib Req Resp MsgID Err) (w : World Err MD)
    (k fuel : Nat) (s : State Req Resp Err MD) (req : Req) (err : Err)
    (hrun : advance lib w k initial = some s)
    (hread : (w.Read s.reads).2 = none)
    (hparse : lib.ParseMessage (readData w s) = Except.ok (Message.request req))
    (hmethod : lib.Method req = OPTIONS)
    (hwrite : w.Write s.writes = some err)
    (hfuel : k < fuel) :
    ∃ s1 payload,
      HandleSIP lib w fuel = some (err, s.trace ++
        [Action.Read (readData w s) none,
         Action.ParseMessage (readData w s) none,
         Action.Append (readEvent (readData w s).length (Message.request req)),
         Action.Info "handling SIP options",
         Action.Append (writeEvent lib (responseTo lib req)),
         Action.Write (toBytes (lib.ResponseString (responseTo lib req))) (some err)]
        ++ finalizer lib w s1) ∧
      (∀ a ∈ finalizer lib w s1, a.isLoopWork = false) ∧
      (finalizer lib w s1).filter Action.isProduce =
        [Action.Produce "sip" w.MetadataByConnection.1 payload
          (s.server.events.map (observe s1.buffer) ++
            [{ Direction := "read", Payload := readData w s,
               Message := some (Message.request req) },
             { Direction := "write",
               Payload := toBytes (lib.ResponseString
                 (lib.NewResponseFromRequest (lib.MessageID req) req 200 "" "")),
               Message := some (Message.response
                 (lib.NewResponseFromRequest (lib.MessageID req) req 200 "" "")) }])
          w.Produce] := by
  have hit : iteration lib w s = Outcome.exit err (responded lib w s req) := by
    rw [iteration_responded lib w s req hread hparse hmethod, hwrite]
  have hloop := loop_exit_of_advance lib w k fuel initial s _ err hrun hit hfuel
  refine ⟨responded lib w s req,
    resolve (responded lib w s req).buffer (firstOrEmpty (responded lib w s req).server.events).Payload,
    ?_, fun a ha => (finalizer_no_loopWork lib w _ a ha).1, ?_⟩
  · rw [HandleSIP_of_loop lib w fuel err _ hloop]
    simp [responded, hwrite]
  · unfold finalizer logFailure
    cases w.MetadataByConnection.2 <;> cases w.Produce <;> cases w.Close <;>
      simp [List.filter, Action.isProduce, responded, readEvent, writeEvent, responseTo,
        observe, resolve]

/-- C10 at the sample peer: the connection of `brokenPipePeer` fails the write
of the response to its OPTIONS request. -/
theorem write_failure_ends_run_witness :
    (advance sampleLib brokenPipePeer 0 initial = some sampleInitial ∧
      (brokenPipePeer.Read sampleInitial.reads).2 = none ∧
      sampleLib.ParseMessage (readData brokenPipePeer sampleInitial)
        = Except.ok (Message.request optionsRequest) ∧
      sampleLib.Method optionsRequest = OPTIONS ∧
      brokenPipePeer.Write sampleInitial.writes = some "broken pipe" ∧
      0 < 1) ∧
    ∃ s1 payload,
      HandleSIP sampleLib brokenPipePeer 1 = some ("broken pipe", sampleInitial.trace ++
        [Action.Read (readData brokenPipePeer sampleInitial) none,
         Action.ParseMessage (readData brokenPipePeer sampleInitial) none,
         Action.Append (readEvent (readData brokenPipePeer sampleInitial).length
           (Message.request optionsRequest)),
         Action.Info "handling SIP options",
         Action.Append (writeEvent sampleLib (responseTo sampleLib optionsRequest)),
         Action.Write (toBytes (sampleLib.ResponseString
           (responseTo sampleLib optionsRequest))) (some "broken pipe")]
        ++ finalizer sampleLib brokenPipePeer s1) ∧
      (∀ a ∈ finalizer sampleLib brokenPipePeer s1, a.isLoopWork = false) ∧
      (finalizer sampleLib brokenPipePeer s1).filter Action.isProduce =
        [Action.Produce "sip" brokenPipePeer.MetadataByConnection.1 payload
          (sampleInitial.server.events.map (observe s1.buffer) ++
            [{ Direction := "read", Payload := readData brokenPipePeer sampleInitial,
               Message := some (Message.request optionsRequest) },
             { Direction := "write",
               Payload := toBytes (sampleLib.ResponseString
                 (sampleLib.NewResponseFromRequest (sampleLib.MessageID optionsRequest)
                   optionsRequest 200 "" "")),
               Message := some (Message.response
                 (sampleLib.NewResponseFromRequest (sampleLib.MessageID optionsRequest)
                   optionsRequest 200 "" "")) }])
          brokenPipePeer.Produce] :=
  ⟨⟨rfl, rfl, rfl, rfl, rfl, by decide⟩,
    write_failure_ends_run sampleLib brokenPipePeer 0 1 sampleInitial optionsRequest
      "broken pipe" rfl rfl rfl rfl rfl (by decide)⟩

/-! ## Parse failures and the reused buffer -/

/-- A run whose read number `k + 1` returns bytes that fail to parse: the
handler returns the parser's error, the failed pass appends no event (the
stored records are those of before the read), and `Produce` is called on
them; what the sink sees of them is read through the buffer as the failed read
left it. -/
theorem parse_failure_run (lib : Lib Req Resp MsgID Err) (w : World Err MD)
    (k fuel : Nat) (s : State Req Resp Err MD) (err : Err)
    (hrun : advance lib w k initial = some s)
    (hread : (w.Read s.reads).2 = none)
    (hparse : lib.ParseMessage (readData w s) = Except.error err)
    (hfuel : k < fuel) :
    ∃ s1, loop lib w fuel initial = some (err, s1) ∧ s1.server.events = s.server.events ∧
      s1.buffer = readData w s ++ s.buffer.drop (readData w s).length ∧
      HandleSIP lib w fuel = some (err, s.trace ++
        [Action.Read (readData w s) none,
         Action.ParseMessage (readData w s) (some err)] ++ finalizer lib w s1) ∧
      (finalizer lib w s1).filter Action.isProduce =
        [Action.Produce "sip" w.MetadataByConnection.1
          (firstPayload (s.server.events.map (observe s1.buffer)))
          (s.server.events.map (observe s1.buffer)) w.Produce] := by
  have hit := iteration_parseFailed lib w s err hread hparse
  have hloop := loop_exit_of_advance lib w k fuel initial s _ err hrun hit hfuel
  refine ⟨parseFailed w s err, hloop, rfl, rfl, ?_, ?_⟩
  · rw [HandleSIP_of_loop lib w fuel err _ hloop]
    simp [parseFailed]
  · have hp : (parseFailed w s err).server.events = s.server.events := rfl
    unfold finalizer logFailure
    rw [hp]
    cases hev : s.server.events <;>
      cases w.MetadataByConnection.2 <;> cases w.Produce <;> cases w.Close <;>
        simp [List.filter, Action.isProduce, firstOrEmpty, firstPayload, resolve, observe,
          default]

/-- C6, for every parser and every connection: a read returns bytes that parse
to `msg`, the pass returns to the loop head, and the next read returns bytes
that fail to parse and differ from the first ones at some position.  The
handler returns the parser's error and calls `Produce`, but the event sequence
it hands over is not the one that existed before the failing read: the `read`
event of `msg`, which showed the bytes of its read, now shows them overwritten
by the malformed bytes. -/
theorem parse_failure_hands_over_changed_event (lib : Lib Req Resp MsgID Err)
    (w : World Err MD) (k fuel : Nat) (s s1 : State Req Resp Err MD)
    (msg : Message Req Resp) (err : Err)
    (hrun : advance lib w k initial = some s)
    (hparse1 : lib.ParseMessage (readData w s) = Except.ok msg)
    (hnext : advance lib w (k + 1) initial = some s1)
    (hread2 : (w.Read s1.reads).2 = none)
    (hparse2 : lib.ParseMessage (readData w s1) = Except.error err)
    (hdiff : ∃ (i : Nat) (b1 b2 : Byte),
      (readData w s)[i]? = some b1 ∧ (readData w s1)[i]? = some b2 ∧ b1 ≠ b2)
    (hfuel : k + 1 < fuel) :
    ∃ tr payload evs,
      HandleSIP lib w fuel = some (err, tr) ∧
      tr.filter Action.isProduce =
        [Action.Produce "sip" w.MetadataByConnection.1 payload evs w.Produce] ∧
      (s1.server.events.map (observe s1.buffer))[s.server.events.length]? =
        some { Direction := "read", Payload := readData w s, Message := some msg } ∧
      evs[s.server.events.length]? =
        some { Direction := "read", Payload := overwrite (readData w s) (readData w s1),
               Message := some msg } ∧
      overwrite (readData w s) (readData w s1) ≠ readData w s ∧
      evs ≠ s1.server.events.map (observe s1.buffer) := by
  have hit1 := advance_succ_inv lib w k initial s s1 hrun hnext
  obtain ⟨hb1, after, he1⟩ := iteration_next_records lib w s s1 msg hparse1 hit1
  have hit2 := iteration_parseFailed lib w s1 err hread2 hparse2
  have hloop := loop_exit_of_advance lib w (k + 1) fuel initial s1 _ err hnext hit2 hfuel
  have hne := overwrite_ne (readData w s) (readData w s1) hdiff
  have hold : (s1.server.events.map (observe s1.buffer))[s.server.events.length]? =
      some { Direction := "read", Payload := readData w s, Message := some msg } := by
    rw [he1, getElem?_map_middle, hb1]
    simp [observe, readEvent, resolve]
  have hnew : ((parseFailed w s1 err).server.events.map
      (observe (parseFailed w s1 err).buffer))[s.server.events.length]? =
      some { Direction := "read", Payload := overwrite (readData w s) (readData w s1),
             Message := some msg } := by
    have hev : (parseFailed w s1 err).server.events = s1.server.events := rfl
    have hbuf : (parseFailed w s1 err).buffer =
        readData w s1 ++ s1.buffer.drop (readData w s1).length := rfl
    rw [hev, hbuf, he1, getElem?_map_middle, hb1, observe_after_next_read]
  refine ⟨_, _, _, HandleSIP_of_loop lib w fuel err _ hloop,
    HandleSIP_produce lib w fuel err _ hloop, hold, hnew, hne, ?_⟩
  intro heq
  rw [heq, hold] at hnew
  simp only [Option.some.injEq, Event.mk.injEq, true_and, and_true] at hnew
  exact hne hnew.symm

set_option maxRecDepth 100000

/-- C6 on `garbledPeer`: a complete REGISTER request is read and recorded, the
next read returns `garbage`; `Produce` receives the `read` event with a payload
that starts with `garbage`. -/
theorem parse_failure_hands_over_changed_event_witness :
    (advance sampleLib garbledPeer 0 initial = some sampleInitial ∧
      sampleLib.ParseMessage (readData garbledPeer sampleInitial)
        = Except.ok fullRegisterMessage ∧
      advance sampleLib garbledPeer (0 + 1) initial = some garbledState ∧
      (garbledPeer.Read garbledState.reads).2 = none ∧
      sampleLib.ParseMessage (readData garbledPeer garbledState)
        = Except.error "malformed start line" ∧
      (∃ (i : Nat) (b1 b2 : Byte), (readData garbledPeer sampleInitial)[i]? = some b1 ∧
        (readData garbledPeer garbledState)[i]? = some b2 ∧ b1 ≠ b2) ∧
      0 + 1 < 2) ∧
    (readData garbledPeer sampleInitial = registerBytes ∧
      readData garbledPeer garbledState = toBytes "garbage" ∧
      overwrite registerBytes (toBytes "garbage") = toBytes "garbage" ++ registerBytes.drop 7 ∧
      HandleSIP sampleLib garbledPeer 2 = some ("malformed start line", garbledTrace)) ∧
    ∃ tr payload evs,
      HandleSIP sampleLib garbledPeer 2 = some ("malformed start line", tr) ∧
      tr.filter Action.isProduce =
        [Action.Produce "sip" garbledPeer.MetadataByConnection.1 payload evs
          garbledPeer.Produce] ∧
      (garbledState.server.events.map (observe garbledState.buffer))[
          sampleInitial.server.events.length]? =
        some { Direction := "read", Payload := readData garbledPeer sampleInitial,
               Message := some fullRegisterMessage } ∧
      evs[sampleInitial.server.events.length]? =
        some { Direction := "read",
               Payload := overwrite (readData garbledPeer sampleInitial)
                 (readData garbledPeer garbledState),
               Message := some fullRegisterMessage } ∧
      overwrite (readData garbledPeer sampleInitial) (readData garbledPeer garbledState)
        ≠ readData garbledPeer sampleInitial ∧
      evs ≠ garbledState.server.events.map (observe garbledState.buffer) :=
  ⟨⟨rfl, rfl, by decide, rfl, rfl, ⟨0, 82, 103, by decide, by decide, by decide⟩,
      by decide⟩,
    ⟨by decide, by decide, by decide, by decide⟩,
    parse_failure_hands_over_changed_event sampleLib garbledPeer 0 2 sampleInitial garbledState
      fullRegisterMessage "malformed start line" rfl rfl (by decide) rfl rfl
      ⟨0, 82, 103, by decide, by decide, by decide⟩ (by decide)⟩

/-- C7, for every parser and every connection: a read returns bytes that parse
to `msg`, the next read returns bytes that are accepted too and differ from the
first ones at some position, and the third read finds the peer gone.  The
`read` event of `msg` showed the bytes of its read when it was appended; the
second read changed it, and `Produce` receives it with a payload that is not
the byte sequence its read returned. -/
theorem later_read_overwrites_recorded_payload (lib : Lib Req Resp MsgID Err)
    (w : World Err MD) (k fuel : Nat) (s s1 s2 : State Req Resp Err MD)
    (msg : Message Req Resp) (err : Err)
    (hrun : advance lib w k initial = some s)
    (hparse1 : lib.ParseMessage (readData w s) = Except.ok msg)
    (hnext1 : advance lib w (k + 1) initial = some s1)
    (hnext2 : advance lib w (k + 1 + 1) initial = some s2)
    (hread3 : w.Read s2.reads = ([], some err))
    (hdiff : ∃ (i : Nat) (b1 b2 : Byte),
      (readData w s)[i]? = some b1 ∧ (readData w s1)[i]? = some b2 ∧ b1 ≠ b2)
    (hfuel : k + 1 + 1 < fuel) :
    ∃ tr payload evs,
      HandleSIP lib w fuel = some (err, tr) ∧
      tr.filter Action.isProduce =
        [Action.Produce "sip" w.MetadataByConnection.1 payload evs w.Produce] ∧
      (s1.server.events.map (observe s1.buffer))[s.server.events.length]? =
        some { Direction := "read", Payload := readData w s, Message := some msg } ∧
      (s2.server.events.map (observe s2.buffer))[s.server.events.length]? =
        some { Direction := "read", Payload := overwrite (readData w s) (readData w s1),
               Message := some msg } ∧
      evs[s.server.events.length]? =
        some { Direction := "read", Payload := overwrite (readData w s) (readData w s1),
               Message := some msg } ∧
      overwrite (readData w s) (readData w s1) ≠ readData w s := by
  have hit1 := advance_succ_inv lib w k initial s s1 hrun hnext1
  obtain ⟨hb1, after, he1⟩ := iteration_next_records lib w s s1 msg hparse1 hit1
  have hit2 := advance_succ_inv lib w (k + 1) initial s1 s2 hnext1 hnext2
  obtain ⟨hb2, added, he2⟩ := iteration_buffer_events lib w s1 s2 (Or.inl hit2)
  have hr3 : (w.Read s2.reads).2 = some err := by rw [hread3]
  have hd3 : readData w s2 = [] := by simp [readData, hread3]
  have hit3 := iteration_readFailed lib w s2 err hr3
  have hloop := loop_exit_of_advance lib w (k + 1 + 1) fuel initial s2 _ err hnext2 hit3 hfuel
  have hne := overwrite_ne (readData w s) (readData w s1) hdiff
  have hold : (s1.server.events.map (observe s1.buffer))[s.server.events.length]? =
      some { Direction := "read", Payload := readData w s, Message := some msg } := by
    rw [he1, getElem?_map_middle, hb1]
    simp [observe, readEvent, resolve]
  have hmid : (s2.server.events.map (observe s2.buffer))[s.server.events.length]? =
      some { Direction := "read", Payload := overwrite (readData w s) (readData w s1),
             Message := some msg } := by
    rw [he2, he1, List.append_assoc, List.cons_append, getElem?_map_middle, hb2, hb1,
      observe_after_next_read]
  have hnew : ((readFailed w s2).server.events.map
      (observe (readFailed w s2).buffer))[s.server.events.length]? =
      some { Direction := "read", Payload := overwrite (readData w s) (readData w s1),
             Message := some msg } := by
    have hev : (readFailed w s2).server.events = s2.server.events := rfl
    have hbuf : (readFailed w s2).buffer = s2.buffer := by
      simp [readFailed, hd3]
    rw [hev, hbuf]
    exact hmid
  exact ⟨_, _, _, HandleSIP_of_loop lib w fuel err _ hloop,
    HandleSIP_produce lib w fuel err _ hloop, hold, hmid, hnew, hne⟩

/-- C7 on `twoRequestPeer`: a complete REGISTER request, then a complete INVITE
request, then the end of the stream; `Produce` receives the `read` event of the
REGISTER request with the bytes of the INVITE request followed by the last five
bytes of the REGISTER request. -/
theorem later_read_overwrites_recorded_payload_witness :
    (advance sampleLib twoRequestPeer 0 initial = some sampleInitial ∧
      sampleLib.ParseMessage (readData twoRequestPeer sampleInitial)
        = Except.ok fullRegisterMessage ∧
      advance sampleLib twoRequestPeer (0 + 1) initial = some oneRequestState ∧
      advance sampleLib twoRequestPeer (0 + 1 + 1) initial = some twoRequestState ∧
      twoRequestPeer.Read twoRequestState.reads = ([], some "EOF") ∧
      (∃ (i : Nat) (b1 b2 : Byte), (readData twoRequestPeer sampleInitial)[i]? = some b1 ∧
        (readData twoRequestPeer oneRequestState)[i]? = some b2 ∧ b1 ≠ b2) ∧
      0 + 1 + 1 < 3) ∧
    (readData twoRequestPeer sampleInitial = registerBytes ∧
      readData twoRequestPeer oneRequestState = inviteBytes ∧
      overwrite registerBytes inviteBytes
        = inviteBytes ++ registerBytes.drop inviteBytes.length ∧
      HandleSIP sampleLib twoRequestPeer 3 = some ("EOF", twoRequestTrace)) ∧
    ∃ tr payload evs,
      HandleSIP sampleLib twoRequestPeer 3 = some ("EOF", tr) ∧
      tr.filter Action.isProduce =
        [Action.Produce "sip" twoRequestPeer.MetadataByConnection.1 payload evs
          twoRequestPeer.Produce] ∧
      (oneRequestState.server.events.map (observe oneRequestState.buffer))[
          sampleInitial.server.events.length]? =
        some { Direction := "read", Payload := readData twoRequestPeer sampleInitial,
               Message := some fullRegisterMessage } ∧
      (twoRequestState.server.events.map (observe twoRequestState.buffer))[
          sampleInitial.server.events.length]? =
        some { Direction := "read",
               Payload := overwrite (readData twoRequestPeer sampleInitial)
                 (readData twoRequestPeer oneRequestState),
               Message := some fullRegisterMessage } ∧
      evs[sampleInitial.server.events.length]? =
        some { Direction := "read",
               Payload := overwrite (readData twoRequestPeer sampleInitial)
                 (readData twoRequestPeer oneRequestState),
               Message := some fullRegisterMessage } ∧
      overwrite (readData twoRequestPeer sampleInitial)
        (readData twoRequestPeer oneRequestState) ≠ readData twoRequestPeer sampleInitial :=
  ⟨⟨rfl, rfl, by decide, by decide, rfl, ⟨0, 82, 73, by decide, by decide, by decide⟩,
      by decide⟩,
    ⟨by decide, by decide, by decide, by decide⟩,
    later_read_overwrites_recorded_payload sampleLib twoRequestPeer 0 3 sampleInitial
      oneRequestState twoRequestState fullRegisterMessage "EOF" rfl rfl (by decide) (by decide)
      rfl ⟨0, 82, 73, by decide, by decide, by decide⟩ (by decide)⟩

end Glutton
